import Mathlib

/-!
Shallow embedding of `globdata.py` (NASA weather analysis homework).

The module defines two classes:
* `DataSet` — wraps one netCDF4 file: reads dimension sizes and variable
  names, flattens the (time × lat × lon) grids into a pandas DataFrame
  (`_convert2dataframe`), derives the sets of physically valid
  coordinates (`_create_coords`), and answers point time-series and
  time-slice queries.
* `DataLoader` — a cache `{filename : DataSet}` with multi-file queries
  `time_series` and `time_slice_daily`, with optional per-call eviction.

Modelling choices:
* Numeric cell values and coordinates are rationals (`ℚ`); a DataFrame
  cell is either a number or a string (`Val`), since `time_slice_daily`
  tags rows with a `FileName` string column.
* A pandas DataFrame is a list of column labels plus a list of rows.
* Python dicts are association lists with insert-or-update semantics
  (insertion order preserved, as in Python 3.7+).
* The filesystem / netCDF4 library is a function
  `fs : String → Option NCFile`; `fs name = none` models
  `nc.Dataset(name)` raising `IOError` (file missing, unreadable or a
  malformed container).
* Python exceptions are values of `PyErr`; fallible operations return
  `Except PyErr _`.  Mutation of a `DataLoader` is explicit state
  passing; the multi-file loops return the final state next to the
  result (or the error), since in Python the object survives an
  exception raised inside a method.
-/

namespace Globdata

/- `Rat.ofScientific` (behind decimal literals such as `32.5`) and the
sealed rational arithmetic are made unfoldable so that `decide` and `rfl`
can evaluate the concrete examples below. -/
attribute [local semireducible] Rat.ofScientific Rat.mul Rat.inv

/-- A DataFrame cell: numeric data, or a string (the `FileName` tag column
added by `DataLoader.time_slice_daily`). -/
inductive Val where
  | num (q : ℚ)
  | str (s : String)
deriving DecidableEq, Repr

/-- Python exceptions that the embedded code can raise. -/
inductive PyErr where
  /-- `NameError('IOError')`, raised by `DataSet.__init__` when opening fails. -/
  | nameError
  /-- `KeyError` — missing dict key / missing DataFrame column. -/
  | keyError
  /-- `IndexError` — netCDF4 variable lookup `ds[name]` with unknown name. -/
  | indexError
  /-- `AttributeError` — attribute access on `None` (released DataFrame). -/
  | attributeError
  /-- `ValueError` — pandas length/column-collision errors. -/
  | valueError
  /-- `TypeError` — e.g. building a `MultiIndex` from a non-1-D axis. -/
  | typeError
deriving DecidableEq, Repr

/-- A pandas DataFrame: column labels and rows of cells (each row has one
cell per column; the positional index is implicit). -/
structure DataFrame where
  cols : List String
  rows : List (List Val)
deriving DecidableEq, Repr

namespace DataFrame

/-- `pd.DataFrame()` — the empty frame with no columns. -/
def empty : DataFrame := ⟨[], []⟩

/-- First position of a label in a label list, if present. -/
def idxOf? (c : String) : List String → Option Nat
  | [] => none
  | x :: xs => if x = c then some 0 else (idxOf? c xs).map (· + 1)

/-- Position of a column label, if present. -/
def colIdx (df : DataFrame) (c : String) : Option Nat :=
  idxOf? c df.cols

/-- Cell of a row at a column position (the default is unreachable when the
position is in range). -/
def cell (r : List Val) (i : Nat) : Val := r.getD i (Val.num 0)

/-- `df.loc[df.loc[:, c] == v]` — keep the rows whose `c` cell equals `v`.
All call sites filter on the index columns `time`/`lat`/`lon`, which are
always present after `reset_index`, so the missing-column branch (pandas
would raise) keeps no row and is unreachable. -/
def filterEq (df : DataFrame) (c : String) (v : Val) : DataFrame :=
  ⟨df.cols, df.rows.filter fun r =>
    match df.colIdx c with
    | some i => cell r i = v
    | none => false⟩

/-- `df[[c₁, …, cₙ]]` — select columns by label; raises `KeyError` when a
label is absent. -/
def select (df : DataFrame) (cs : List String) : Except PyErr DataFrame :=
  if cs.all fun c => (df.colIdx c).isSome then
    .ok ⟨cs, df.rows.map fun r => cs.map fun c => cell r ((df.colIdx c).getD 0)⟩
  else
    .error .keyError

/-- `pd.concat([a, b])`.  A frame with no columns and no rows (a bare
`pd.DataFrame()`) contributes nothing; otherwise the rows are appended.
All nonempty frames concatenated by the loader share their column lists,
so column alignment never pads. -/
def concat (a b : DataFrame) : DataFrame :=
  if a.cols.isEmpty && a.rows.isEmpty then b
  else if b.cols.isEmpty && b.rows.isEmpty then a
  else ⟨a.cols, a.rows ++ b.rows⟩

/-- `df[c] = scalar` — append a column holding the same value in every row
(used for the `FileName` tag). -/
def addConstCol (df : DataFrame) (c : String) (v : Val) : DataFrame :=
  ⟨df.cols ++ [c], df.rows.map fun r => r ++ [v]⟩

/-- `df.to_numpy()` — drop the column labels. -/
def to_numpy (df : DataFrame) : List (List Val) := df.rows

end DataFrame

/-- A Python dict with string keys, as an association list.  `insert`
updates in place when the key exists (Python dicts keep the original
position) and appends otherwise, so iteration order matches Python. -/
abbrev Dict (α : Type) : Type := List (String × α)

namespace Dict

def lookup {α} : Dict α → String → Option α
  | [], _ => none
  | p :: tl, k => if p.1 = k then some p.2 else lookup tl k

def member {α} (d : Dict α) (k : String) : Bool :=
  (lookup d k).isSome

def insert {α} (d : Dict α) (k : String) (v : α) : Dict α :=
  if member d k then
    List.map (fun p => if p.1 = k then (k, v) else p) d
  else
    d ++ [(k, v)]

/-- `del d[k]` (call sites only delete keys that are present). -/
def erase {α} (d : Dict α) (k : String) : Dict α :=
  List.filter (fun p => ¬ p.1 = k) d

def keys {α} (d : Dict α) : List String :=
  List.map Prod.fst d

end Dict

/-- Raw data of one netCDF variable: `[:].data` yields a 1-D axis array or
a 3-D (time × lat × lon) grid. -/
inductive NCData where
  | d1 (xs : List ℚ)
  | d3 (xs : List (List (List ℚ)))
deriving DecidableEq, Repr

/-- numpy `.flatten()` — row-major order. -/
def NCData.flatten : NCData → List ℚ
  | .d1 xs => xs
  | .d3 xs => (xs.map List.flatten).flatten

/-- One variable of a netCDF file: short storage name, descriptive long
name, and raw data. -/
structure NCVar where
  name : String
  long_name : String
  data : NCData
deriving DecidableEq, Repr

/-- A successfully opened netCDF file: named dimensions with sizes, and
variables in file order. -/
structure NCFile where
  dims : List (String × Nat)
  vars : List NCVar
deriving DecidableEq, Repr

/-- First variable with a given short name, if any. -/
def findVar (name : String) : List NCVar → Option NCVar
  | [] => none
  | v :: vs => if v.name = name then some v else findVar name vs

/-- `ds[name]` — look a variable up by its short name; netCDF4 raises
`IndexError` when the name is unknown. -/
def NCFile.getVar (ds : NCFile) (name : String) : Except PyErr NCVar :=
  match findVar name ds.vars with
  | some v => .ok v
  | none => .error .indexError

/-- `ds[name][:].data` for a coordinate axis: must be 1-D, otherwise
`pd.MultiIndex.from_product` would fail on it. -/
def NCFile.getAxis (ds : NCFile) (name : String) : Except PyErr (List ℚ) := do
  let v ← ds.getVar name
  match v.data with
  | .d1 xs => .ok xs
  | .d3 _ => .error .typeError

/-- `pd.MultiIndex.from_product([time, lat, lon])` — Cartesian product,
`time` varying slowest, then `lat`, then `lon`. -/
def productIndex (timeA latA lonA : List ℚ) : List (ℚ × ℚ × ℚ) :=
  timeA.flatMap fun t => latA.flatMap fun la => lonA.map fun lo => (t, la, lo)

/-- The filesystem / netCDF4 library: `none` means `nc.Dataset` raises. -/
def FileSys : Type := String → Option NCFile

/-- A loaded dataset (`DataSet` object): dimension dict, variable dict
`{long_name : short_name}`, the flattened DataFrame (`none` after
`release()`), and the valid coordinate sets (modelled by lists; only
membership is ever used, matching Python `set`). -/
structure DataSet where
  dim_dict : Dict Nat
  var_dict : Dict String
  df : Option DataFrame
  lat_set : List ℚ
  lon_set : List ℚ
deriving DecidableEq, Repr

namespace DataSet

/-- The long names skipped when assigning data columns
(`if k not in {'longitude', 'latitude', 'time'}`). -/
def axisNames : List String := ["longitude", "latitude", "time"]

/-- One step of the column loop in `_convert2dataframe`: flatten the
variable and align it on the multi-index (`pd.Series(fl, index=multi_index)`
raises `ValueError` when the lengths differ). -/
def addVarColumn (ds : NCFile) (n : Nat) (acc : List (String × List ℚ))
    (kv : String × String) : Except PyErr (List (String × List ℚ)) :=
  if kv.1 ∈ axisNames then .ok acc
  else do
    let v ← ds.getVar kv.2
    let fl := v.data.flatten
    if fl.length = n then .ok (acc ++ [(kv.1, fl)])
    else .error .valueError

/-- Row `i` of the final DataFrame: the product triple at position `i`
followed by each data column's value at position `i` (Series assignment on
an identical index is positional). -/
def mkRow (idx : List (ℚ × ℚ × ℚ)) (colsData : List (String × List ℚ))
    (i : Nat) : List Val :=
  match idx.getD i (0, 0, 0) with
  | (t, la, lo) =>
    [Val.num t, Val.num la, Val.num lo] ++
      colsData.map fun c => Val.num (c.2.getD i 0)

/-- `_convert2dataframe`: build the multi-index as the product of the
`time`, `lat`, `lon` axes, assign every non-axis variable's flattened grid
as a column, then `reset_index` (which raises `ValueError` when a data
column already uses an index name). -/
def convert2dataframe (ds : NCFile) (var_dict : Dict String) :
    Except PyErr DataFrame := do
  let lonA ← ds.getAxis "lon"
  let latA ← ds.getAxis "lat"
  let timeA ← ds.getAxis "time"
  let idx := productIndex timeA latA lonA
  let colsData ← var_dict.foldlM (addVarColumn ds idx.length) []
  if colsData.any fun c => c.1 ∈ ["time", "lat", "lon"] then
    .error .valueError
  else
    .ok ⟨["time", "lat", "lon"] ++ colsData.map Prod.fst,
         (List.range idx.length).map (mkRow idx colsData)⟩

/-- `_create_coords`: the lat/lon values present in the table and inside
the physical range ([-90, 90] resp. [-180, 180]). -/
def createCoords (df : DataFrame) : List ℚ × List ℚ :=
  (df.rows.filterMap fun r =>
      match DataFrame.cell r ((df.colIdx "lat").getD 0) with
      | .num q => if -90 ≤ q ∧ q ≤ 90 then some q else none
      | .str _ => none,
   df.rows.filterMap fun r =>
      match DataFrame.cell r ((df.colIdx "lon").getD 0) with
      | .num q => if -180 ≤ q ∧ q ≤ 180 then some q else none
      | .str _ => none)

/-- `DataSet.__init__`: open the file (`IOError` is re-raised as
`NameError('IOError')`), read dimension sizes and variable names, flatten
to a DataFrame, and derive the coordinate sets. -/
def init (fs : FileSys) (filename : String) : Except PyErr DataSet := do
  match fs filename with
  | none => .error .nameError
  | some ds => do
    let dim_dict := ds.dims.foldl (fun d p => Dict.insert d p.1 p.2) []
    let var_dict := ds.vars.foldl (fun d v => Dict.insert d v.long_name v.name) []
    let df ← convert2dataframe ds var_dict
    let coords := createCoords df
    .ok ⟨dim_dict, var_dict, some df, coords.1, coords.2⟩

def get_dim_dict (d : DataSet) : Dict Nat := d.dim_dict

def get_var_dict (d : DataSet) : Dict String := d.var_dict

def get_coord_set (d : DataSet) : List ℚ × List ℚ := (d.lat_set, d.lon_set)

/-- `coord_timeseries(lat, lon, var_long)`: when both coordinates are in
the valid sets, filter the table to the exact coordinate pair and keep
`time` plus the requested columns; otherwise print a message and return an
empty `pd.DataFrame()`.  `self.df` being `None` (after `release`) makes
`.loc` raise `AttributeError`. -/
def coord_timeseries (d : DataSet) (lat lon : ℚ) (var_long : List String) :
    Except PyErr DataFrame :=
  if lon ∈ d.lon_set ∧ lat ∈ d.lat_set then
    match d.df with
    | none => .error .attributeError
    | some dfl =>
      ((dfl.filterEq "lat" (Val.num lat)).filterEq "lon" (Val.num lon)).select
        ("time" :: var_long)
  else
    .ok DataFrame.empty

/-- `time_slice(time, var_long)`: rows with the exact `time` value,
restricted to `lat`, `lon` and the variable; no validation of `time`. -/
def time_slice (d : DataSet) (time : ℚ) (var_long : String) :
    Except PyErr DataFrame :=
  match d.df with
  | none => .error .attributeError
  | some dfl =>
    (dfl.filterEq "time" (Val.num time)).select ["lat", "lon", var_long]

/-- `release()`: drop the DataFrame, keep the metadata. -/
def release (d : DataSet) : DataSet := { d with df := none }

end DataSet

/-- `DataLoader` object state.  `loadCount` is instrumentation only: it
counts how many times `DataSet.init` has been invoked (the spec asks that
cache idempotence be verified via a load counter); no behaviour depends
on it. -/
structure DataLoader where
  ds_dict : Dict DataSet
  loadCount : Nat
deriving DecidableEq, Repr

namespace DataLoader

/-- `DataLoader.__init__`: empty cache. -/
def mk0 : DataLoader := ⟨[], 0⟩

/-- `_load_dataset`: construct a `DataSet` and cache it; any exception is
caught and swallowed (`except: print('Dataset was not opened')`), leaving
the cache unchanged. -/
def load_dataset (fs : FileSys) (st : DataLoader) (file_name : String) :
    DataLoader :=
  match DataSet.init fs file_name with
  | .ok ds => ⟨Dict.insert st.ds_dict file_name ds, st.loadCount + 1⟩
  | .error _ => ⟨st.ds_dict, st.loadCount + 1⟩

/-- The body of `time_series`: iterate over the files, loading on cache
miss; `self.ds_dict[current_file]` raises `KeyError` when the load failed;
append the per-file result; with `cache=False`, delete the entry. -/
def timeSeriesLoop (fs : FileSys) (lat lon : ℚ) (var_long : List String)
    (cache : Bool) :
    List String → DataLoader → DataFrame → Except PyErr DataFrame × DataLoader
  | [], st, acc => (.ok acc, st)
  | f :: rest, st, acc =>
    let st1 := if Dict.member st.ds_dict f then st else load_dataset fs st f
    match Dict.lookup st1.ds_dict f with
    | none => (.error .keyError, st1)
    | some ds =>
      match ds.coord_timeseries lat lon var_long with
      | .error e => (.error e, st1)
      | .ok curr =>
        let acc1 := acc.concat curr
        let st2 :=
          if cache then st1 else ⟨Dict.erase st1.ds_dict f, st1.loadCount⟩
        timeSeriesLoop fs lat lon var_long cache rest st2 acc1

/-- `time_series(files_list, lat, lon, var_long, cache)` (DataFrame form;
`as_numpy=True` additionally applies `DataFrame.to_numpy`). -/
def time_series (fs : FileSys) (st : DataLoader) (files_list : List String)
    (lat lon : ℚ) (var_long : List String) (cache : Bool) :
    Except PyErr DataFrame × DataLoader :=
  timeSeriesLoop fs lat lon var_long cache files_list st DataFrame.empty

/-- The body of `time_slice_daily`: same load/evict pattern, per-file
`time_slice`, with a `FileName` tag column added before concatenation. -/
def timeSliceLoop (fs : FileSys) (time : ℚ) (var_long : String)
    (cache : Bool) :
    List String → DataLoader → DataFrame → Except PyErr DataFrame × DataLoader
  | [], st, acc => (.ok acc, st)
  | f :: rest, st, acc =>
    let st1 := if Dict.member st.ds_dict f then st else load_dataset fs st f
    match Dict.lookup st1.ds_dict f with
    | none => (.error .keyError, st1)
    | some ds =>
      match ds.time_slice time var_long with
      | .error e => (.error e, st1)
      | .ok curr =>
        let acc1 := acc.concat (curr.addConstCol "FileName" (Val.str f))
        let st2 :=
          if cache then st1 else ⟨Dict.erase st1.ds_dict f, st1.loadCount⟩
        timeSliceLoop fs time var_long cache rest st2 acc1

/-- `time_slice_daily(files_list, time, var_long, cache)`. -/
def time_slice_daily (fs : FileSys) (st : DataLoader)
    (files_list : List String) (time : ℚ) (var_long : String)
    (cache : Bool) : Except PyErr DataFrame × DataLoader :=
  timeSliceLoop fs time var_long cache files_list st DataFrame.empty

end DataLoader

/-! ### Derived notions used in the specifications -/

/-- The 3-D grid of a variable (empty for a 1-D axis variable). -/
def NCVar.grid3 (v : NCVar) : List (List (List ℚ)) :=
  match v.data with
  | .d1 _ => []
  | .d3 g => g

/-- The flattened data of the variable stored under a short name (empty
when the name is unknown); matches `ds[short][:].data.flatten()` on
success. -/
def flatOf (file : NCFile) (short : String) : List ℚ :=
  match file.getVar short with
  | .ok v => v.data.flatten
  | .error _ => []

/-- First variable with a given long name, if any. -/
def varByLong (k : String) : List NCVar → Option NCVar
  | [] => none
  | v :: vs => if v.long_name = k then some v else varByLong k vs

/-- The fallback variable (only used to totalize `Option.getD`). -/
def noVar : NCVar := ⟨"", "", .d1 []⟩

/-- The variables that receive a data column: every variable whose long
name is not one of the coordinate-axis long names. -/
def dataVars (file : NCFile) : List NCVar :=
  file.vars.filter fun v => v.long_name ∉ DataSet.axisNames

/-- A variable's grid has exactly the shape `(time, lat, lon)`. -/
def ExactShape (v : NCVar) (nt nlat nlon : Nat) : Prop :=
  ∃ g, v.data = .d3 g ∧ g.length = nt ∧
    (∀ p ∈ g, p.length = nlat ∧ ∀ r ∈ p, r.length = nlon)

/-- The dimensions dict as built by `DataSet.__init__`. -/
def dimDictOf (file : NCFile) : Dict Nat :=
  file.dims.foldl (fun d p => Dict.insert d p.1 p.2) []

/-- The columns of flattened data assigned by `_convert2dataframe`, one
per non-axis variable, in file order. -/
def dataCols (file : NCFile) : List (String × List ℚ) :=
  (dataVars file).map fun v => (v.long_name, v.data.flatten)

/-- The DataFrame `_convert2dataframe` produces on a well-formed file
(distinct variable names, every data column of full length): the index
columns `time`, `lat`, `lon` followed by one column per non-axis
variable, with one row per element of the coordinate product. -/
def builtDF (file : NCFile) (timeA latA lonA : List ℚ) : DataFrame :=
  ⟨["time", "lat", "lon"] ++ (dataVars file).map NCVar.long_name,
   (List.range (timeA.length * (latA.length * lonA.length))).map
     (DataSet.mkRow (productIndex timeA latA lonA) (dataCols file))⟩

/-- The rows a single file contributes to a multi-file `time_series`
query (empty when its load or query fails — those cases abort the query
and never contribute rows). -/
def perFileTS (fs : FileSys) (lat lon : ℚ) (vl : List String)
    (f : String) : List (List Val) :=
  match DataSet.init fs f with
  | .error _ => []
  | .ok d =>
    match d.coord_timeseries lat lon vl with
    | .error _ => []
    | .ok df => df.rows

/-- The rows a single file contributes to a multi-file `time_slice_daily`
query: its `time_slice` rows, each tagged with the file name. -/
def perFileTSD (fs : FileSys) (t : ℚ) (v : String)
    (f : String) : List (List Val) :=
  match DataSet.init fs f with
  | .error _ => []
  | .ok d =>
    match d.time_slice t v with
    | .error _ => []
    | .ok df => df.rows.map fun r => r ++ [Val.str f]

/-! ### Concrete inputs (the data of the spec's worked example) -/

/-- The example file of the spec: `time=[0,1]`, `lat=[32.5,35]`,
`lon=[35,40]`, one data variable `total_precipitation` with grid
`[[[1,2],[3,4]],[[5,6],[7,8]]]` (shape time × lat × lon). -/
def exFile : NCFile :=
  { dims := [("time", 2), ("lat", 2), ("lon", 2)],
    vars := [⟨"lon", "longitude", .d1 [35, 40]⟩,
             ⟨"lat", "latitude", .d1 [32.5, 35]⟩,
             ⟨"time", "time", .d1 [0, 1]⟩,
             ⟨"PRECTOT", "total_precipitation",
               .d3 [[[1, 2], [3, 4]], [[5, 6], [7, 8]]]⟩] }

/-- A second example file with the same axes and different data, to
exercise multi-file queries. -/
def exFile2 : NCFile :=
  { dims := [("time", 2), ("lat", 2), ("lon", 2)],
    vars := [⟨"lon", "longitude", .d1 [35, 40]⟩,
             ⟨"lat", "latitude", .d1 [32.5, 35]⟩,
             ⟨"time", "time", .d1 [0, 1]⟩,
             ⟨"PRECTOT", "total_precipitation",
               .d3 [[[11, 12], [13, 14]], [[15, 16], [17, 18]]]⟩] }

/-- Example filesystem: two readable files; every other name fails to
open. -/
def exFS : FileSys := fun n =>
  if n = "f1" then some exFile else if n = "f2" then some exFile2 else none

/-- The `DataSet` loaded from `exFile` (extracted from `DataSet.init`;
see `exDS_init`). -/
def exDS : DataSet :=
  (DataSet.init exFS "f1").toOption.getD ⟨[], [], none, [], []⟩

/-- The `DataSet` loaded from `exFile2`. -/
def exDS2 : DataSet :=
  (DataSet.init exFS "f2").toOption.getD ⟨[], [], none, [], []⟩

theorem exDS_init : DataSet.init exFS "f1" = .ok exDS := rfl

theorem exDS2_init : DataSet.init exFS "f2" = .ok exDS2 := rfl

/-! ### Association-list (Python dict) lemmas -/

namespace Dict

theorem lookup_append {α} (d1 d2 : Dict α) (k : String) :
    lookup (d1 ++ d2) k =
      match lookup d1 k with
      | some v => some v
      | none => lookup d2 k := by
  induction d1 with
  | nil => simp [lookup]
  | cons p tl ih =>
    by_cases hp : p.1 = k <;> simp [lookup, hp, ih]

theorem lookup_mapUpd {α} (d : Dict α) (k k' : String) (v : α) :
    lookup (d.map fun p => if p.1 = k then (k, v) else p) k' =
      if k' = k then (lookup d k).map fun _ => v else lookup d k' := by
  induction d with
  | nil => simp [lookup]
  | cons p tl ih =>
    by_cases hp : p.1 = k
    · by_cases hk : k' = k
      · subst hk; simp [lookup, hp, ih]
      · have hkk : ¬ k = k' := Ne.symm hk
        simp [lookup, hp, hkk, ih, hk]
    · by_cases hk : k' = k
      · subst hk
        have hpk : ¬ p.1 = k' := hp
        simp [lookup, hp, hpk, ih]
      · by_cases hpk : p.1 = k' <;> simp [lookup, hp, hpk, ih, hk]

theorem lookup_insert {α} (d : Dict α) (k k' : String) (v : α) :
    lookup (insert d k v) k' = if k' = k then some v else lookup d k' := by
  unfold insert
  by_cases hm : member d k
  · rw [if_pos hm, lookup_mapUpd]
    by_cases hk : k' = k
    · obtain ⟨x, hx⟩ := Option.isSome_iff_exists.mp hm
      simp [hk, hx]
    · simp [hk]
  · rw [if_neg hm, lookup_append]
    have hnone : lookup d k = none := by
      by_contra h
      exact hm (Option.isSome_iff_ne_none.mpr (by simpa [member] using h))
    by_cases hk : k' = k
    · subst hk; simp [hnone, lookup]
    · cases h : lookup d k' <;> simp [lookup, hk, Ne.symm hk]

theorem member_insert {α} (d : Dict α) (k k' : String) (v : α) :
    member (insert d k v) k' = (if k' = k then true else member d k') := by
  simp only [member, lookup_insert]
  by_cases hk : k' = k <;> simp [hk]

theorem erase_cons {α} (p : String × α) (tl : Dict α) (k : String) :
    erase (p :: tl) k = if p.1 = k then erase tl k else p :: erase tl k := by
  by_cases hp : p.1 = k <;> simp [erase, List.filter_cons, hp]

theorem lookup_erase {α} (d : Dict α) (k k' : String) :
    lookup (erase d k) k' = if k' = k then none else lookup d k' := by
  induction d with
  | nil => simp [erase, lookup]
  | cons p tl ih =>
    rw [erase_cons]
    by_cases hp : p.1 = k
    · rw [if_pos hp, ih]
      by_cases hk : k' = k
      · simp [hk]
      · have hpk : ¬ p.1 = k' := fun h => hk (by rw [← h, hp])
        simp [lookup, hpk, hk]
    · rw [if_neg hp]
      by_cases hpk : p.1 = k'
      · have hk : ¬ k' = k := fun h => hp (by rw [hpk, h])
        simp [lookup, hpk, hk]
      · simp [lookup, hpk, ih]

theorem member_erase {α} (d : Dict α) (k k' : String) :
    member (erase d k) k' = (if k' = k then false else member d k') := by
  simp only [member, lookup_erase]
  by_cases hk : k' = k <;> simp [hk]

theorem lookup_eq_none_of_not_member {α} (d : Dict α) (k : String)
    (h : member d k = false) : lookup d k = none := by
  cases hl : lookup d k with
  | none => rfl
  | some v => rw [member, hl] at h; simp at h

theorem mem_keys_iff_member {α} (d : Dict α) (k : String) :
    k ∈ keys d ↔ member d k = true := by
  induction d with
  | nil => simp [keys, member, lookup]
  | cons p tl ih =>
    by_cases hp : p.1 = k
    · simp [keys, member, lookup, hp]
    · simp only [keys, List.map_cons, List.mem_cons, member, lookup, if_neg hp]
      constructor
      · rintro (h | h)
        · exact absurd h.symm hp
        · exact (ih.mp (by simpa [keys] using h))
      · intro h
        exact Or.inr (by simpa [keys] using ih.mpr h)

theorem keys_mapUpd {α} (d : Dict α) (k : String) (v : α) :
    keys (d.map fun p => if p.1 = k then (k, v) else p) = keys d := by
  induction d with
  | nil => rfl
  | cons p tl ih =>
    by_cases hp : p.1 = k <;> simp [keys, hp] at * <;> exact ih

theorem keys_insert_of_member {α} (d : Dict α) (k : String) (v : α)
    (h : member d k = true) : keys (insert d k v) = keys d := by
  unfold insert
  rw [if_pos h, keys_mapUpd]

theorem keys_insert_of_not_member {α} (d : Dict α) (k : String) (v : α)
    (h : member d k = false) : keys (insert d k v) = keys d ++ [k] := by
  unfold insert
  rw [if_neg (by simp [h]), keys, keys, List.map_append]
  rfl

theorem nodup_keys_insert {α} (d : Dict α) (k : String) (v : α)
    (h : (keys d).Nodup) : (keys (insert d k v)).Nodup := by
  cases hm : member d k
  · rw [keys_insert_of_not_member d k v hm]
    have hk : k ∉ keys d := fun hmem =>
      by simp [(mem_keys_iff_member d k).mp hmem] at hm
    simp [List.nodup_append, h, hk]
  · rw [keys_insert_of_member d k v hm]; exact h

theorem nodup_keys_erase {α} (d : Dict α) (k : String)
    (h : (keys d).Nodup) : (keys (erase d k)).Nodup := by
  have hsub : List.Sublist (keys (erase d k)) (keys d) :=
    (List.filter_sublist d).map Prod.fst
  exact h.sublist hsub

end Dict

/-! ### Column-index and variable-lookup lemmas -/

theorem idxOf?_eq_some {c : String} :
    ∀ {l : List String} {i : Nat}, DataFrame.idxOf? c l = some i →
      i < l.length ∧ l.getD i "" = c := by
  intro l
  induction l with
  | nil => intro i h; simp [DataFrame.idxOf?] at h
  | cons x xs ih =>
    intro i h
    by_cases hx : x = c
    · simp [DataFrame.idxOf?, hx] at h
      subst h; simpa using hx
    · simp only [DataFrame.idxOf?, if_neg hx, Option.map_eq_some'] at h
      obtain ⟨j, hj, rfl⟩ := h
      obtain ⟨h1, h2⟩ := ih hj
      exact ⟨by simpa using h1, by simpa using h2⟩

theorem idxOf?_of_mem {c : String} :
    ∀ {l : List String}, c ∈ l → (DataFrame.idxOf? c l).isSome := by
  intro l
  induction l with
  | nil => simp
  | cons x xs ih =>
    intro h
    by_cases hx : x = c
    · simp [DataFrame.idxOf?, hx]
    · rcases List.mem_cons.mp h with h1 | h1
      · exact absurd h1.symm hx
      · simp only [DataFrame.idxOf?, if_neg hx]
        cases hj : DataFrame.idxOf? c xs with
        | none => have := ih h1; rw [hj] at this; simp at this
        | some j => simp

theorem findVar_eq_of_mem {vs : List NCVar} (v : NCVar) (hv : v ∈ vs)
    (hnodup : (vs.map NCVar.name).Nodup) : findVar v.name vs = some v := by
  induction vs with
  | nil => simp at hv
  | cons w ws ih =>
    rcases List.mem_cons.mp hv with h1 | h1
    · subst h1; simp [findVar]
    · have hwname : ¬ w.name = v.name := by
        intro h
        have : v.name ∈ ws.map NCVar.name := List.mem_map.mpr ⟨v, h1, rfl⟩
        rw [← h] at this
        exact (List.nodup_cons.mp hnodup).1 this
      simp only [findVar, if_neg hwname]
      exact ih h1 (List.nodup_cons.mp hnodup).2

theorem varByLong_eq_of_mem {vs : List NCVar} (v : NCVar) (hv : v ∈ vs)
    (hnodup : (vs.map NCVar.long_name).Nodup) : varByLong v.long_name vs = some v := by
  induction vs with
  | nil => simp at hv
  | cons w ws ih =>
    rcases List.mem_cons.mp hv with h1 | h1
    · subst h1; simp [varByLong]
    · have hwname : ¬ w.long_name = v.long_name := by
        intro h
        have : v.long_name ∈ ws.map NCVar.long_name := List.mem_map.mpr ⟨v, h1, rfl⟩
        rw [← h] at this
        exact (List.nodup_cons.mp hnodup).1 this
      simp only [varByLong, if_neg hwname]
      exact ih h1 (List.nodup_cons.mp hnodup).2

/-! ### DataFrame lemmas -/

namespace DataFrame

theorem concat_rows (a b : DataFrame) : (a.concat b).rows = a.rows ++ b.rows := by
  unfold concat
  split_ifs with h1 h2
  · have : a.rows = [] := List.isEmpty_iff.mp (Bool.and_eq_true _ _ |>.mp h1).2
    simp [this]
  · have : b.rows = [] := List.isEmpty_iff.mp (Bool.and_eq_true _ _ |>.mp h2).2
    simp [this]
  · rfl

theorem select_ok (df : DataFrame) (cs : List String)
    (h : ∀ c ∈ cs, (df.colIdx c).isSome) :
    df.select cs =
      .ok ⟨cs, df.rows.map fun r => cs.map fun c => cell r ((df.colIdx c).getD 0)⟩ := by
  unfold select
  rw [if_pos]
  rw [List.all_eq_true]
  intro c hc
  simpa using h c hc

end DataFrame

/-! ### Flattening and range lemmas -/

theorem getD_range (n i : Nat) (h : i < n) : (List.range n).getD i 0 = i := by
  rw [List.getD_eq_getElem _ _ (by simpa using h)]
  simp

theorem getD_map_of_lt {α β : Type} (f : α → β) (l : List α) (i : Nat) (d : β)
    (d' : α) (h : i < l.length) : (l.map f).getD i d = f (l.getD i d') := by
  rw [List.getD_eq_getElem _ _ (by simpa using h), List.getD_eq_getElem _ _ h]
  simp

theorem getD_mem {α : Type} (l : List α) (i : Nat) (d : α) (h : i < l.length) :
    l.getD i d ∈ l := by
  rw [List.getD_eq_getElem _ _ h]
  exact List.getElem_mem h

theorem length_flatMap_const {α β : Type} (f : α → List β) (k : Nat) :
    ∀ l : List α, (∀ a ∈ l, (f a).length = k) → (l.flatMap f).length = l.length * k
  | [], _ => by simp
  | a :: tl, h => by
    simp only [List.flatMap_cons, List.length_append, List.length_cons]
    rw [h a (by simp), length_flatMap_const f k tl (fun x hx => h x (by simp [hx]))]
    ring

theorem getD_flatMap_const {α β : Type} (f : α → List β) (k : Nat) (d : β) (d' : α) :
    ∀ (l : List α), (∀ a ∈ l, (f a).length = k) →
      ∀ i j, i < l.length → j < k →
      (l.flatMap f).getD (i * k + j) d = (f (l.getD i d')).getD j d
  | [], _, i, _, hi, _ => absurd hi (by simp)
  | a :: tl, h, 0, j, _, hj => by
    simp only [List.flatMap_cons, Nat.zero_mul, Nat.zero_add, List.getD_cons_zero]
    exact List.getD_append _ _ _ _ (by rw [h a (by simp)]; exact hj)
  | a :: tl, h, i + 1, j, hi, hj => by
    simp only [List.flatMap_cons]
    have hlen : (f a).length = k := h a (by simp)
    have hidx : (i + 1) * k + j = (f a).length + (i * k + j) := by rw [hlen]; ring
    rw [hidx, List.getD_append_right _ _ _ _ (by omega), Nat.add_sub_cancel_left]
    have := getD_flatMap_const f k d d' tl (fun x hx => h x (by simp [hx])) i j
      (by simpa using hi) hj
    simpa using this

theorem length_flatten_const {β : Type} (k : Nat) :
    ∀ l : List (List β), (∀ x ∈ l, x.length = k) → l.flatten.length = l.length * k
  | [], _ => by simp
  | x :: tl, h => by
    simp only [List.flatten_cons, List.length_append, List.length_cons]
    rw [h x (by simp), length_flatten_const k tl (fun y hy => h y (by simp [hy]))]
    ring

theorem getD_flatten_const {β : Type} (k : Nat) (d : β) :
    ∀ (l : List (List β)), (∀ x ∈ l, x.length = k) →
      ∀ i j, i < l.length → j < k →
      l.flatten.getD (i * k + j) d = (l.getD i []).getD j d
  | [], _, i, _, hi, _ => absurd hi (by simp)
  | x :: tl, h, 0, j, _, hj => by
    simp only [List.flatten_cons, Nat.zero_mul, Nat.zero_add, List.getD_cons_zero]
    exact List.getD_append _ _ _ _ (by rw [h x (by simp)]; exact hj)
  | x :: tl, h, i + 1, j, hi, hj => by
    simp only [List.flatten_cons]
    have hlen : x.length = k := h x (by simp)
    have hidx : (i + 1) * k + j = x.length + (i * k + j) := by rw [hlen]; ring
    rw [hidx, List.getD_append_right _ _ _ _ (by omega), Nat.add_sub_cancel_left]
    have := getD_flatten_const k d tl (fun y hy => h y (by simp [hy])) i j
      (by simpa using hi) hj
    simpa using this

/-- Position `it*(nlat*nlon) + ila*nlon + ilo` of the flattened 3-D grid is
the grid cell `g[it][ila][ilo]`, when the grid's shape is exact. -/
theorem flatten3_getD (g : List (List (List ℚ))) (nt nlat nlon : Nat)
    (hg : g.length = nt) (hp : ∀ p ∈ g, p.length = nlat ∧ ∀ r ∈ p, r.length = nlon)
    (it ila ilo : Nat) (hit : it < nt) (hila : ila < nlat) (hilo : ilo < nlon) :
    (NCData.flatten (.d3 g)).getD (it * (nlat * nlon) + (ila * nlon + ilo)) 0 =
      ((g.getD it []).getD ila []).getD ilo 0 := by
  have hlen : ∀ x ∈ g.map List.flatten, x.length = nlat * nlon := by
    intro x hx
    obtain ⟨p, hpg, rfl⟩ := List.mem_map.mp hx
    rw [length_flatten_const nlon p (fun r hr => (hp p hpg).2 r hr), (hp p hpg).1]
  have hjlt : ila * nlon + ilo < nlat * nlon := by
    calc ila * nlon + ilo < ila * nlon + nlon := by omega
    _ = (ila + 1) * nlon := by ring
    _ ≤ nlat * nlon := Nat.mul_le_mul_right nlon (Nat.succ_le_of_lt hila)
  show ((g.map List.flatten).flatten).getD _ 0 = _
  rw [getD_flatten_const (nlat * nlon) 0 (g.map List.flatten) hlen it
    (ila * nlon + ilo) (by simpa [hg] using hit) hjlt]
  rw [getD_map_of_lt List.flatten g it [] [] (by omega)]
  have hpg : g.getD it [] ∈ g := getD_mem g it [] (by omega)
  rw [getD_flatten_const nlon 0 (g.getD it []) (fun r hr => (hp _ hpg).2 r hr)
    ila ilo (by rw [(hp _ hpg).1]; exact hila) hilo]

theorem length_productIndex (ts las los : List ℚ) :
    (productIndex ts las los).length = ts.length * (las.length * los.length) := by
  unfold productIndex
  rw [length_flatMap_const _ (las.length * los.length)]
  intro t _
  rw [length_flatMap_const _ los.length]
  intro la _
  simp

theorem getD_productIndex (ts las los : List ℚ) (it ila ilo : Nat)
    (hit : it < ts.length) (hila : ila < las.length) (hilo : ilo < los.length) :
    (productIndex ts las los).getD
        (it * (las.length * los.length) + (ila * los.length + ilo)) (0, 0, 0) =
      (ts.getD it 0, las.getD ila 0, los.getD ilo 0) := by
  unfold productIndex
  have hjlt : ila * los.length + ilo < las.length * los.length := by
    calc ila * los.length + ilo < ila * los.length + los.length := by omega
    _ = (ila + 1) * los.length := by ring
    _ ≤ las.length * los.length :=
      Nat.mul_le_mul_right los.length (Nat.succ_le_of_lt hila)
  rw [getD_flatMap_const _ (las.length * los.length) (0, 0, 0) 0 ts
    (fun t _ => by
      rw [length_flatMap_const _ los.length]
      intro la _
      simp) it (ila * los.length + ilo) hit hjlt]
  rw [getD_flatMap_const _ los.length (0, 0, 0) 0 las
    (fun la _ => by simp) ila ilo hila hilo]
  rw [getD_map_of_lt _ los ilo (0, 0, 0) 0 hilo]

theorem mem_productIndex (ts las los : List ℚ) (p : ℚ × ℚ × ℚ)
    (h : p ∈ productIndex ts las los) : p.1 ∈ ts ∧ p.2.1 ∈ las ∧ p.2.2 ∈ los := by
  unfold productIndex at h
  rw [List.mem_flatMap] at h
  obtain ⟨t, ht, h⟩ := h
  rw [List.mem_flatMap] at h
  obtain ⟨la, hla, h⟩ := h
  rw [List.mem_map] at h
  obtain ⟨lo, hlo, rfl⟩ := h
  exact ⟨ht, hla, hlo⟩

/-! ### `Except` bind reductions -/

theorem exnBindOk {ε α β : Type} (a : α) (f : α → Except ε β) :
    (Except.ok a : Except ε α) >>= f = f a := rfl

theorem exnBindErr {ε α β : Type} (e : ε) (f : α → Except ε β) :
    (Except.error e : Except ε α) >>= f = .error e := rfl

/-! ### Filtering `List.range` by quotient and remainder -/

theorem range_filter_eq : ∀ (k c : Nat), c < k →
    (List.range k).filter (fun j => j = c) = [c]
  | 0, c, h => absurd h (by omega)
  | k + 1, c, h => by
    rw [List.range_succ, List.filter_append]
    by_cases hck : c = k
    · subst hck
      have h1 : (List.range c).filter (fun j => j = c) = [] := by
        rw [List.filter_eq_nil_iff]
        intro a ha
        simp only [List.mem_range] at ha
        simp
        omega
      rw [h1]
      simp
    · have hck' : c < k := by omega
      rw [range_filter_eq k c hck']
      have h2 : List.filter (fun j => decide (j = c)) [k] = [] := by
        simp [hck]
        omega
      simp only [List.filter_cons, List.filter_nil] at h2 ⊢
      rw [show (decide (k = c)) = false by simpa using fun h => hck h.symm]
      simp

theorem range_filter_mod (k c : Nat) (hc : c < k) :
    ∀ n, (List.range (n * k)).filter (fun i => i % k = c) =
      (List.range n).map (fun j => j * k + c)
  | 0 => by simp
  | n + 1 => by
    rw [Nat.succ_mul, List.range_add, List.filter_append, range_filter_mod k c hc n,
      List.filter_map, List.range_succ, List.map_append]
    congr 1
    have hcong : ∀ j ∈ List.range k,
        (decide ((n * k + j) % k = c)) = (decide (j = c)) := by
      intro j hj
      rw [List.mem_range] at hj
      have : (n * k + j) % k = j := by
        rw [Nat.mul_comm n k, Nat.mul_add_mod, Nat.mod_eq_of_lt hj]
      simp [this]
    calc ((List.range k).filter fun j => decide ((fun x => n * k + x) j % k = c)).map
          (fun x => n * k + x)
        = ((List.range k).filter fun j => decide (j = c)).map (fun x => n * k + x) := by
          rw [List.filter_congr hcong]
      _ = [n * k + c] := by rw [range_filter_eq k c hc]; simp
      _ = List.map (fun j => j * k + c) [n] := by
          simp [Nat.mul_comm n k]

theorem range_filter_div (k c : Nat) :
    ∀ n, c < n → (List.range (n * k)).filter (fun i => i / k = c) =
      (List.range k).map (fun j => c * k + j)
  | 0, hc => absurd hc (by omega)
  | n + 1, hc => by
    by_cases hk : k = 0
    · subst hk; simp
    have hkpos : 0 < k := Nat.pos_of_ne_zero hk
    rw [Nat.succ_mul, List.range_add, List.filter_append, List.filter_map]
    have hdiv : ∀ j, j < k → (n * k + j) / k = n := by
      intro j hj
      rw [Nat.mul_comm n k, Nat.mul_add_div hkpos, Nat.div_eq_of_lt hj, Nat.add_zero]
    by_cases hcn : c = n
    · subst hcn
      have h1 : (List.range (c * k)).filter (fun i => i / k = c) = [] := by
        rw [List.filter_eq_nil_iff]
        intro a ha
        rw [List.mem_range] at ha
        have : a / k < c := (Nat.div_lt_iff_lt_mul hkpos).mpr ha
        simp
        omega
      have h2 : ∀ j ∈ List.range k,
          ((fun i => decide (i / k = c)) ∘ fun x => c * k + x) j = true := by
        intro j hj
        rw [List.mem_range] at hj
        simpa [Function.comp] using hdiv j hj
      rw [h1, List.filter_congr h2, List.filter_true]
      simp
    · have hcn' : c < n := by omega
      rw [range_filter_div k c n hcn']
      have h2 : ∀ j ∈ List.range k,
          ((fun i => decide (i / k = c)) ∘ fun x => n * k + x) j = false := by
        intro j hj
        rw [List.mem_range] at hj
        simp only [Function.comp, decide_eq_false_iff_not]
        rw [hdiv j hj]
        exact fun h => hcn h.symm
      rw [List.filter_congr h2, List.filter_false]
      simp

/-! ### Characterizing `DataSet` construction -/

theorem member_append_single {α} (d : Dict α) (k k' : String) (v : α)
    (h1 : Dict.member d k' = false) (h2 : ¬ k = k') :
    Dict.member (d ++ [(k, v)]) k' = false := by
  rw [Dict.member, Dict.lookup_append, Dict.lookup_eq_none_of_not_member d k' h1]
  simp [Dict.lookup, h2]

theorem foldl_insert_vars :
    ∀ (vs : List NCVar) (acc : Dict String),
      (vs.map NCVar.long_name).Nodup →
      (∀ v ∈ vs, Dict.member acc v.long_name = false) →
      vs.foldl (fun d v => Dict.insert d v.long_name v.name) acc =
        acc ++ vs.map (fun v => (v.long_name, v.name))
  | [], acc, _, _ => by simp
  | v :: vs, acc, hnd, hacc => by
    simp only [List.foldl_cons, List.map_cons]
    have hnd' : v.long_name ∉ vs.map NCVar.long_name ∧ (vs.map NCVar.long_name).Nodup :=
      List.nodup_cons.mp (by simpa using hnd)
    have hm : Dict.member acc v.long_name = false := hacc v (by simp)
    have hins : Dict.insert acc v.long_name v.name = acc ++ [(v.long_name, v.name)] := by
      unfold Dict.insert
      rw [if_neg (by simp [hm])]
    rw [hins, foldl_insert_vars vs (acc ++ [(v.long_name, v.name)]) hnd'.2
      (fun w hw => member_append_single _ _ _ _ (hacc w (by simp [hw]))
        (fun h => hnd'.1 (by rw [h]; exact List.mem_map.mpr ⟨w, hw, rfl⟩)))]
    simp

theorem varDictOf_eq (file : NCFile) (h : (file.vars.map NCVar.long_name).Nodup) :
    file.vars.foldl (fun d v => Dict.insert d v.long_name v.name) [] =
      file.vars.map fun v => (v.long_name, v.name) := by
  rw [foldl_insert_vars file.vars [] h (fun v _ => by simp [Dict.member, Dict.lookup])]
  simp

theorem foldlM_addVar (file : NCFile) (n : Nat) :
    ∀ (kvs : List (String × String)) (acc0 : List (String × List ℚ)),
      (∀ kv ∈ kvs, kv.1 ∉ DataSet.axisNames →
        ∃ v, file.getVar kv.2 = .ok v ∧ v.data.flatten.length = n) →
      List.foldlM (DataSet.addVarColumn file n) acc0 kvs =
        .ok (acc0 ++ (kvs.filter fun kv => kv.1 ∉ DataSet.axisNames).map
          fun kv => (kv.1, flatOf file kv.2))
  | [], _, _ => by
    simp only [List.foldlM_nil, List.filter_nil, List.map_nil, List.append_nil]
    rfl
  | kv :: kvs, acc0, h => by
    rw [List.foldlM_cons]
    by_cases hax : kv.1 ∈ DataSet.axisNames
    · have hstep : DataSet.addVarColumn file n acc0 kv = .ok acc0 := by
        unfold DataSet.addVarColumn
        rw [if_pos hax]
      rw [hstep, exnBindOk,
        foldlM_addVar file n kvs acc0 (fun kv' h1 h2 => h kv' (by simp [h1]) h2)]
      simp [List.filter_cons, hax]
    · obtain ⟨v, hv, hlen⟩ := h kv (by simp) hax
      have hflat : flatOf file kv.2 = v.data.flatten := by
        unfold flatOf
        rw [hv]
      have hstep : DataSet.addVarColumn file n acc0 kv =
          .ok (acc0 ++ [(kv.1, v.data.flatten)]) := by
        unfold DataSet.addVarColumn
        rw [if_neg hax, hv]
        simp [exnBindOk, hlen]
      rw [hstep, exnBindOk,
        foldlM_addVar file n kvs _ (fun kv' h1 h2 => h kv' (by simp [h1]) h2)]
      simp [List.filter_cons, hax, hflat, List.append_assoc]

theorem convert2dataframe_ok (file : NCFile) (vd : Dict String)
    (timeA latA lonA : List ℚ)
    (hlon : file.getAxis "lon" = .ok lonA)
    (hlat : file.getAxis "lat" = .ok latA)
    (htime : file.getAxis "time" = .ok timeA)
    (hvars : ∀ kv ∈ vd, kv.1 ∉ DataSet.axisNames →
      ∃ v, file.getVar kv.2 = .ok v ∧
        v.data.flatten.length = timeA.length * (latA.length * lonA.length))
    (hnames : ∀ kv ∈ vd, kv.1 ∉ DataSet.axisNames →
      ¬ kv.1 ∈ (["time", "lat", "lon"] : List String)) :
    DataSet.convert2dataframe file vd =
      .ok ⟨["time", "lat", "lon"] ++
            (vd.filter fun kv => kv.1 ∉ DataSet.axisNames).map Prod.fst,
          (List.range (timeA.length * (latA.length * lonA.length))).map
            (DataSet.mkRow (productIndex timeA latA lonA)
              ((vd.filter fun kv => kv.1 ∉ DataSet.axisNames).map
                fun kv => (kv.1, flatOf file kv.2)))⟩ := by
  unfold DataSet.convert2dataframe
  simp only [hlon, hlat, htime, exnBindOk]
  rw [length_productIndex, foldlM_addVar file _ vd [] hvars]
  simp only [exnBindOk, List.nil_append]
  rw [if_neg]
  · congr 1
    simp [List.map_map, Function.comp]
  · intro hany
    rw [List.any_eq_true] at hany
    obtain ⟨c, hc, hmem⟩ := hany
    obtain ⟨kv, hkv, rfl⟩ := List.mem_map.mp hc
    have h1 := List.mem_filter.mp hkv
    exact (hnames kv h1.1 (by simpa using h1.2)) (by simpa using hmem)

theorem mem_dataVars {file : NCFile} {v : NCVar} (h : v ∈ dataVars file) :
    v ∈ file.vars ∧ v.long_name ∉ DataSet.axisNames := by
  have := List.mem_filter.mp h
  exact ⟨this.1, by simpa using this.2⟩

/-- `DataSet.init` on a well-formed file: explicit value of every field. -/
theorem init_built (fs : FileSys) (fname : String) (file : NCFile)
    (timeA latA lonA : List ℚ)
    (hopen : fs fname = some file)
    (hlon : file.getAxis "lon" = .ok lonA)
    (hlat : file.getAxis "lat" = .ok latA)
    (htime : file.getAxis "time" = .ok timeA)
    (hndl : (file.vars.map NCVar.long_name).Nodup)
    (hnds : (file.vars.map NCVar.name).Nodup)
    (hlen : ∀ v ∈ dataVars file,
      v.data.flatten.length = timeA.length * (latA.length * lonA.length))
    (hnames : ∀ v ∈ dataVars file,
      ¬ v.long_name ∈ (["time", "lat", "lon"] : List String)) :
    DataSet.init fs fname = .ok
      { dim_dict := dimDictOf file,
        var_dict := file.vars.map fun v => (v.long_name, v.name),
        df := some (builtDF file timeA latA lonA),
        lat_set := (DataSet.createCoords (builtDF file timeA latA lonA)).1,
        lon_set := (DataSet.createCoords (builtDF file timeA latA lonA)).2 } := by
  have hfilter : ((file.vars.map fun v => (v.long_name, v.name)).filter
      fun kv => kv.1 ∉ DataSet.axisNames) =
      (dataVars file).map fun v => (v.long_name, v.name) := by
    rw [List.filter_map]
    rfl
  have hconv := convert2dataframe_ok file (file.vars.map fun v => (v.long_name, v.name))
    timeA latA lonA hlon hlat htime
    (by
      intro kv hkv hax
      obtain ⟨v, hv, rfl⟩ := List.mem_map.mp hkv
      have hdv : v ∈ dataVars file := List.mem_filter.mpr ⟨hv, by simpa using hax⟩
      exact ⟨v, by rw [NCFile.getVar, findVar_eq_of_mem v hv hnds], hlen v hdv⟩)
    (by
      intro kv hkv hax
      obtain ⟨v, hv, rfl⟩ := List.mem_map.mp hkv
      exact hnames v (List.mem_filter.mpr ⟨hv, by simpa using hax⟩))
  have hcols : ((file.vars.map fun v => (v.long_name, v.name)).filter
        (fun kv => kv.1 ∉ DataSet.axisNames)).map
      (fun kv => (kv.1, flatOf file kv.2)) = dataCols file := by
    rw [hfilter, List.map_map]
    unfold dataCols
    apply List.map_congr_left
    intro v hv
    have hvv : v ∈ file.vars := (mem_dataVars hv).1
    simp only [Function.comp]
    rw [flatOf, NCFile.getVar, findVar_eq_of_mem v hvv hnds]
  unfold DataSet.init
  rw [hopen]
  simp only [varDictOf_eq file hndl, hconv, exnBindOk]
  unfold builtDF dimDictOf
  rw [← hcols]
  have hcolnames : (dataVars file).map NCVar.long_name =
      ((file.vars.map fun v => (v.long_name, v.name)).filter
        (fun kv => kv.1 ∉ DataSet.axisNames)).map Prod.fst := by
    rw [hfilter, List.map_map]
    rfl
  rw [hcolnames]

/-! ### The built DataFrame: columns, rows, coordinate sets -/

theorem pos_lt_total {it ila ilo nt nlat nlon : Nat} (hit : it < nt)
    (hila : ila < nlat) (hilo : ilo < nlon) :
    it * (nlat * nlon) + (ila * nlon + ilo) < nt * (nlat * nlon) := by
  have h1 : ila * nlon + ilo < nlat * nlon := by
    calc ila * nlon + ilo < ila * nlon + nlon := by omega
    _ = (ila + 1) * nlon := by ring
    _ ≤ nlat * nlon := Nat.mul_le_mul_right _ (Nat.succ_le_of_lt hila)
  calc it * (nlat * nlon) + (ila * nlon + ilo) < it * (nlat * nlon) + nlat * nlon := by
        omega
  _ = (it + 1) * (nlat * nlon) := by ring
  _ ≤ nt * (nlat * nlon) := Nat.mul_le_mul_right _ (Nat.succ_le_of_lt hit)

theorem builtDF_colIdx_time (file : NCFile) (timeA latA lonA : List ℚ) :
    (builtDF file timeA latA lonA).colIdx "time" = some 0 := rfl

theorem builtDF_colIdx_lat (file : NCFile) (timeA latA lonA : List ℚ) :
    (builtDF file timeA latA lonA).colIdx "lat" = some 1 := rfl

theorem builtDF_colIdx_lon (file : NCFile) (timeA latA lonA : List ℚ) :
    (builtDF file timeA latA lonA).colIdx "lon" = some 2 := rfl

theorem builtDF_colIdx_data (file : NCFile) (timeA latA lonA : List ℚ)
    (x : String) (hx1 : ¬ "time" = x) (hx2 : ¬ "lat" = x) (hx3 : ¬ "lon" = x)
    (i : Nat) (hix : DataFrame.idxOf? x ((dataVars file).map NCVar.long_name) = some i) :
    (builtDF file timeA latA lonA).colIdx x = some (i + 3) := by
  unfold builtDF DataFrame.colIdx
  show DataFrame.idxOf? x
    ("time" :: "lat" :: "lon" :: (dataVars file).map NCVar.long_name) = some (i + 3)
  simp only [DataFrame.idxOf?, if_neg hx1, if_neg hx2, if_neg hx3, hix,
    Option.map_some']

theorem builtDF_rows_length (file : NCFile) (timeA latA lonA : List ℚ) :
    (builtDF file timeA latA lonA).rows.length =
      timeA.length * (latA.length * lonA.length) := by
  simp [builtDF]

/-- Decomposed form of a product-index entry at an arbitrary position. -/
theorem getD_productIndex_decomp (ts las los : List ℚ) (i : Nat)
    (hi : i < ts.length * (las.length * los.length)) :
    (productIndex ts las los).getD i (0, 0, 0) =
      (ts.getD (i / (las.length * los.length)) 0,
       las.getD (i % (las.length * los.length) / los.length) 0,
       los.getD (i % los.length) 0) := by
  set K := las.length * los.length with hK
  have hKpos : 0 < K := by
    rcases Nat.eq_zero_or_pos K with h | h
    · rw [h, Nat.mul_zero] at hi; omega
    · exact h
  have hlos : 0 < los.length := by
    rcases Nat.eq_zero_or_pos los.length with h | h
    · rw [hK, h, Nat.mul_zero] at hKpos; omega
    · exact h
  have hdvd : los.length ∣ K := ⟨las.length, Nat.mul_comm _ _⟩
  have hmod : i % los.length = i % K % los.length := (Nat.mod_mod_of_dvd i hdvd).symm
  have h1 : i % K / los.length * los.length + i % K % los.length = i % K := by
    conv_rhs => rw [← Nat.div_add_mod (i % K) los.length]
    ring
  have h2 : i / K * K + i % K = i := by
    conv_rhs => rw [← Nat.div_add_mod i K]
    ring
  have hdecomp : i = i / K * K + (i % K / los.length * los.length + i % los.length) := by
    rw [hmod, h1]
    exact h2.symm
  have hit : i / K < ts.length := (Nat.div_lt_iff_lt_mul hKpos).mpr hi
  have hila : i % K / los.length < las.length := by
    apply (Nat.div_lt_iff_lt_mul hlos).mpr
    calc i % K < K := Nat.mod_lt i hKpos
    _ = las.length * los.length := hK
  have hilo : i % los.length < los.length := Nat.mod_lt i hlos
  rw [hmod]
  conv_lhs => rw [hdecomp]
  rw [hmod] at hilo ⊢
  exact getD_productIndex ts las los _ _ _ hit hila hilo

/-- Row `i` of the built table, with `i` decomposed into its time, lat and
lon positions. -/
theorem builtDF_row_decomp (file : NCFile) (timeA latA lonA : List ℚ) (i : Nat)
    (hi : i < timeA.length * (latA.length * lonA.length)) :
    (builtDF file timeA latA lonA).rows.getD i [] =
      Val.num (timeA.getD (i / (latA.length * lonA.length)) 0) ::
      Val.num (latA.getD (i % (latA.length * lonA.length) / lonA.length) 0) ::
      Val.num (lonA.getD (i % lonA.length) 0) ::
      (dataVars file).map (fun v => Val.num (v.data.flatten.getD i 0)) := by
  unfold builtDF
  rw [show (DataFrame.mk (["time", "lat", "lon"] ++
      (dataVars file).map NCVar.long_name)
      ((List.range (timeA.length * (latA.length * lonA.length))).map
        (DataSet.mkRow (productIndex timeA latA lonA) (dataCols file)))).rows =
      (List.range (timeA.length * (latA.length * lonA.length))).map
        (DataSet.mkRow (productIndex timeA latA lonA) (dataCols file)) from rfl]
  rw [getD_map_of_lt _ _ i [] 0 (by simpa using hi), getD_range _ _ hi]
  unfold DataSet.mkRow
  rw [getD_productIndex_decomp timeA latA lonA i hi]
  simp [dataCols, List.map_map, Function.comp]

/-- Row at the composed position `it*(nlat*nlon) + ila*nlon + ilo`. -/
theorem builtDF_row (file : NCFile) (timeA latA lonA : List ℚ)
    (it ila ilo : Nat) (hit : it < timeA.length) (hila : ila < latA.length)
    (hilo : ilo < lonA.length) :
    (builtDF file timeA latA lonA).rows.getD
        (it * (latA.length * lonA.length) + (ila * lonA.length + ilo)) [] =
      Val.num (timeA.getD it 0) :: Val.num (latA.getD ila 0) ::
      Val.num (lonA.getD ilo 0) ::
      (dataVars file).map (fun v => Val.num (v.data.flatten.getD
        (it * (latA.length * lonA.length) + (ila * lonA.length + ilo)) 0)) := by
  unfold builtDF
  rw [show (DataFrame.mk (["time", "lat", "lon"] ++
      (dataVars file).map NCVar.long_name)
      ((List.range (timeA.length * (latA.length * lonA.length))).map
        (DataSet.mkRow (productIndex timeA latA lonA) (dataCols file)))).rows =
      (List.range (timeA.length * (latA.length * lonA.length))).map
        (DataSet.mkRow (productIndex timeA latA lonA) (dataCols file)) from rfl]
  have hpos := pos_lt_total hit hila hilo
  rw [getD_map_of_lt _ _ _ [] 0 (by simpa using hpos), getD_range _ _ hpos]
  unfold DataSet.mkRow
  rw [getD_productIndex timeA latA lonA it ila ilo hit hila hilo]
  simp [dataCols, List.map_map, Function.comp]

/-- Every member of the derived valid-latitude set is a value of the `lat`
axis. -/
theorem lat_set_built_subset (file : NCFile) (timeA latA lonA : List ℚ) (q : ℚ)
    (h : q ∈ (DataSet.createCoords (builtDF file timeA latA lonA)).1) :
    q ∈ latA := by
  unfold DataSet.createCoords at h
  simp only [builtDF_colIdx_lat, Option.getD_some] at h
  rw [List.mem_filterMap] at h
  obtain ⟨r, hr, hcell⟩ := h
  have hrows : (builtDF file timeA latA lonA).rows =
      (List.range (timeA.length * (latA.length * lonA.length))).map
        (DataSet.mkRow (productIndex timeA latA lonA) (dataCols file)) := rfl
  rw [hrows, List.mem_map] at hr
  obtain ⟨i, hi, rfl⟩ := hr
  rw [List.mem_range] at hi
  have hcell1 : DataFrame.cell
      (DataSet.mkRow (productIndex timeA latA lonA) (dataCols file) i) 1 =
      Val.num (((productIndex timeA latA lonA).getD i (0, 0, 0)).2.1) := rfl
  rw [hcell1] at hcell
  have hmem : (productIndex timeA latA lonA).getD i (0, 0, 0) ∈
      productIndex timeA latA lonA := by
    apply getD_mem
    rw [length_productIndex]
    exact hi
  have hcell' : (if -90 ≤ ((productIndex timeA latA lonA).getD i (0, 0, 0)).2.1 ∧
      ((productIndex timeA latA lonA).getD i (0, 0, 0)).2.1 ≤ 90 then
        some (((productIndex timeA latA lonA).getD i (0, 0, 0)).2.1)
      else none) = some q := hcell
  split at hcell'
  · injection hcell' with hq
    rw [← hq]
    exact (mem_productIndex _ _ _ _ hmem).2.1
  · exact absurd hcell' (by simp)

/-- Every member of the derived valid-longitude set is a value of the
`lon` axis. -/
theorem lon_set_built_subset (file : NCFile) (timeA latA lonA : List ℚ) (q : ℚ)
    (h : q ∈ (DataSet.createCoords (builtDF file timeA latA lonA)).2) :
    q ∈ lonA := by
  unfold DataSet.createCoords at h
  simp only [builtDF_colIdx_lon, Option.getD_some] at h
  rw [List.mem_filterMap] at h
  obtain ⟨r, hr, hcell⟩ := h
  have hrows : (builtDF file timeA latA lonA).rows =
      (List.range (timeA.length * (latA.length * lonA.length))).map
        (DataSet.mkRow (productIndex timeA latA lonA) (dataCols file)) := rfl
  rw [hrows, List.mem_map] at hr
  obtain ⟨i, hi, rfl⟩ := hr
  rw [List.mem_range] at hi
  have hcell2 : DataFrame.cell
      (DataSet.mkRow (productIndex timeA latA lonA) (dataCols file) i) 2 =
      Val.num (((productIndex timeA latA lonA).getD i (0, 0, 0)).2.2) := rfl
  rw [hcell2] at hcell
  have hmem : (productIndex timeA latA lonA).getD i (0, 0, 0) ∈
      productIndex timeA latA lonA := by
    apply getD_mem
    rw [length_productIndex]
    exact hi
  have hcell' : (if -180 ≤ ((productIndex timeA latA lonA).getD i (0, 0, 0)).2.2 ∧
      ((productIndex timeA latA lonA).getD i (0, 0, 0)).2.2 ≤ 180 then
        some (((productIndex timeA latA lonA).getD i (0, 0, 0)).2.2)
      else none) = some q := hcell
  split at hcell'
  · injection hcell' with hq
    rw [← hq]
    exact (mem_productIndex _ _ _ _ hmem).2.2
  · exact absurd hcell' (by simp)

/-! ### Filtering the built table by coordinates and by time -/

theorem filterEq_rows (df : DataFrame) (c : String) (v : Val) :
    (df.filterEq c v).rows = df.rows.filter fun r =>
      match df.colIdx c with
      | some i => decide (DataFrame.cell r i = v)
      | none => false := rfl

theorem colIdx_filterEq (df : DataFrame) (c : String) (v : Val) (c' : String) :
    (df.filterEq c v).colIdx c' = df.colIdx c' := rfl

theorem nodup_getD_eq_iff (l : List ℚ) (hnd : l.Nodup) {i j : Nat}
    (hi : i < l.length) (hj : j < l.length) :
    (l.getD i 0 = l.getD j 0) ↔ i = j := by
  rw [List.getD_eq_getElem _ _ hi, List.getD_eq_getElem _ _ hj]
  exact hnd.getElem_inj_iff

theorem modK_eq_iff (i ila ilo nlat nlon : Nat) (hila : ila < nlat)
    (hilo : ilo < nlon) :
    (i % (nlat * nlon) / nlon = ila ∧ i % nlon = ilo) ↔
      i % (nlat * nlon) = ila * nlon + ilo := by
  have hnlon : 0 < nlon := by omega
  have hmm : i % (nlat * nlon) % nlon = i % nlon :=
    Nat.mod_mod_of_dvd i ⟨nlat, Nat.mul_comm nlat nlon⟩
  constructor
  · rintro ⟨h1, h2⟩
    conv_lhs => rw [← Nat.div_add_mod (i % (nlat * nlon)) nlon]
    rw [h1, hmm, h2, Nat.mul_comm]
  · intro h
    refine ⟨?_, ?_⟩
    · rw [h, Nat.mul_comm ila nlon, Nat.mul_add_div hnlon, Nat.div_eq_of_lt hilo,
        Nat.add_zero]
    · rw [← hmm, h, Nat.mul_comm ila nlon, Nat.mul_add_mod, Nat.mod_eq_of_lt hilo]

theorem block_lt (ila ilo nlat nlon : Nat) (hila : ila < nlat) (hilo : ilo < nlon) :
    ila * nlon + ilo < nlat * nlon := by
  calc ila * nlon + ilo < ila * nlon + nlon := by omega
  _ = (ila + 1) * nlon := by ring
  _ ≤ nlat * nlon := Nat.mul_le_mul_right _ (Nat.succ_le_of_lt hila)

/-- Filtering the built table to an exact `(lat, lon)` pair keeps, in
order, one row per time position: the rows at positions
`it*(nlat*nlon) + ila*nlon + ilo`. -/
theorem builtDF_filterEq_coords (file : NCFile) (timeA latA lonA : List ℚ)
    (lat lon : ℚ) (ila ilo : Nat)
    (hndla : latA.Nodup) (hndlo : lonA.Nodup)
    (hila : ila < latA.length) (hilo : ilo < lonA.length)
    (hlat_at : latA.getD ila 0 = lat) (hlon_at : lonA.getD ilo 0 = lon) :
    (((builtDF file timeA latA lonA).filterEq "lat" (Val.num lat)).filterEq
        "lon" (Val.num lon)).rows =
      (List.range timeA.length).map (fun it =>
        (builtDF file timeA latA lonA).rows.getD
          (it * (latA.length * lonA.length) + (ila * lonA.length + ilo)) []) := by
  set nt := timeA.length
  set nlat := latA.length
  set nlon := lonA.length
  have hc : ila * nlon + ilo < nlat * nlon := block_lt ila ilo nlat nlon hila hilo
  rw [filterEq_rows, colIdx_filterEq, filterEq_rows]
  simp only [builtDF_colIdx_lat, builtDF_colIdx_lon]
  rw [List.filter_filter]
  have hrows : (builtDF file timeA latA lonA).rows =
      (List.range (nt * (nlat * nlon))).map
        (DataSet.mkRow (productIndex timeA latA lonA) (dataCols file)) := rfl
  rw [hrows, List.filter_map]
  have hcong : ∀ i ∈ List.range (nt * (nlat * nlon)),
      ((fun a => decide (DataFrame.cell a 2 = Val.num lon) &&
          decide (DataFrame.cell a 1 = Val.num lat)) ∘
        DataSet.mkRow (productIndex timeA latA lonA) (dataCols file)) i =
      decide (i % (nlat * nlon) = ila * nlon + ilo) := by
    intro i hi
    rw [List.mem_range] at hi
    have h1 : DataFrame.cell
        (DataSet.mkRow (productIndex timeA latA lonA) (dataCols file) i) 1 =
        Val.num (((productIndex timeA latA lonA).getD i (0, 0, 0)).2.1) := rfl
    have h2 : DataFrame.cell
        (DataSet.mkRow (productIndex timeA latA lonA) (dataCols file) i) 2 =
        Val.num (((productIndex timeA latA lonA).getD i (0, 0, 0)).2.2) := rfl
    have hKpos : 0 < nlat * nlon := by
      rcases Nat.eq_zero_or_pos (nlat * nlon) with h | h
      · rw [h, Nat.mul_zero] at hi; omega
      · exact h
    have hnlon : 0 < nlon := by
      rcases Nat.eq_zero_or_pos nlon with h | h
      · rw [h, Nat.mul_zero] at hKpos; omega
      · exact h
    have hdv : i % (nlat * nlon) / nlon < nlat := by
      apply (Nat.div_lt_iff_lt_mul hnlon).mpr
      exact Nat.mod_lt i hKpos
    have hmd : i % nlon < nlon := Nat.mod_lt i hnlon
    simp only [Function.comp, h1, h2, getD_productIndex_decomp timeA latA lonA i hi,
      Val.num.injEq]
    rw [← Bool.decide_and]
    apply decide_eq_decide.mpr
    rw [← hlat_at, ← hlon_at,
      nodup_getD_eq_iff latA hndla hdv hila,
      nodup_getD_eq_iff lonA hndlo hmd hilo]
    rw [and_comm]
    exact modK_eq_iff i ila ilo nlat nlon hila hilo
  rw [List.filter_congr hcong, range_filter_mod (nlat * nlon) (ila * nlon + ilo) hc nt,
    List.map_map]
  apply List.map_congr_left
  intro it hit
  rw [List.mem_range] at hit
  simp only [Function.comp]
  rw [getD_map_of_lt _ _ _ [] 0
    (by simpa using pos_lt_total hit hila hilo),
    getD_range _ _ (pos_lt_total hit hila hilo)]

/-- Filtering the built table to a `time` value that occurs at position
`it0` of the axis keeps exactly the `it0`-th block of `nlat*nlon` rows. -/
theorem builtDF_filterEq_time (file : NCFile) (timeA latA lonA : List ℚ)
    (t : ℚ) (it0 : Nat) (hnd : timeA.Nodup) (hit0 : it0 < timeA.length)
    (ht_at : timeA.getD it0 0 = t) :
    ((builtDF file timeA latA lonA).filterEq "time" (Val.num t)).rows =
      (List.range (latA.length * lonA.length)).map (fun j =>
        (builtDF file timeA latA lonA).rows.getD
          (it0 * (latA.length * lonA.length) + j) []) := by
  set nt := timeA.length
  set nlat := latA.length
  set nlon := lonA.length
  rw [filterEq_rows]
  simp only [builtDF_colIdx_time]
  have hrows : (builtDF file timeA latA lonA).rows =
      (List.range (nt * (nlat * nlon))).map
        (DataSet.mkRow (productIndex timeA latA lonA) (dataCols file)) := rfl
  rw [hrows, List.filter_map]
  have hcong : ∀ i ∈ List.range (nt * (nlat * nlon)),
      ((fun r => decide (DataFrame.cell r 0 = Val.num t)) ∘
        DataSet.mkRow (productIndex timeA latA lonA) (dataCols file)) i =
      decide (i / (nlat * nlon) = it0) := by
    intro i hi
    rw [List.mem_range] at hi
    have h0 : DataFrame.cell
        (DataSet.mkRow (productIndex timeA latA lonA) (dataCols file) i) 0 =
        Val.num (((productIndex timeA latA lonA).getD i (0, 0, 0)).1) := rfl
    have hKpos : 0 < nlat * nlon := by
      rcases Nat.eq_zero_or_pos (nlat * nlon) with h | h
      · rw [h, Nat.mul_zero] at hi; omega
      · exact h
    have hdv : i / (nlat * nlon) < nt := (Nat.div_lt_iff_lt_mul hKpos).mpr hi
    simp only [Function.comp, h0, getD_productIndex_decomp timeA latA lonA i hi,
      Val.num.injEq]
    apply decide_eq_decide.mpr
    rw [← ht_at, nodup_getD_eq_iff timeA hnd hdv hit0]
  rw [List.filter_congr hcong, range_filter_div (nlat * nlon) it0 nt hit0,
    List.map_map]
  apply List.map_congr_left
  intro j hj
  rw [List.mem_range] at hj
  simp only [Function.comp]
  have hlt : it0 * (nlat * nlon) + j < nt * (nlat * nlon) := by
    calc it0 * (nlat * nlon) + j < it0 * (nlat * nlon) + nlat * nlon := by omega
    _ = (it0 + 1) * (nlat * nlon) := by ring
    _ ≤ nt * (nlat * nlon) := Nat.mul_le_mul_right _ (Nat.succ_le_of_lt hit0)
  rw [getD_map_of_lt _ _ _ [] 0 (by simpa using hlt), getD_range _ _ hlt]

/-- Filtering the built table to a `time` value absent from the axis
keeps no row. -/
theorem builtDF_filterEq_time_absent (file : NCFile) (timeA latA lonA : List ℚ)
    (t : ℚ) (ht : t ∉ timeA) :
    ((builtDF file timeA latA lonA).filterEq "time" (Val.num t)).rows = [] := by
  set nt := timeA.length
  set nlat := latA.length
  set nlon := lonA.length
  rw [filterEq_rows]
  simp only [builtDF_colIdx_time]
  rw [List.filter_eq_nil_iff]
  intro r hr
  have hrows : (builtDF file timeA latA lonA).rows =
      (List.range (nt * (nlat * nlon))).map
        (DataSet.mkRow (productIndex timeA latA lonA) (dataCols file)) := rfl
  rw [hrows, List.mem_map] at hr
  obtain ⟨i, hi, rfl⟩ := hr
  rw [List.mem_range] at hi
  have h0 : DataFrame.cell
      (DataSet.mkRow (productIndex timeA latA lonA) (dataCols file) i) 0 =
      Val.num (((productIndex timeA latA lonA).getD i (0, 0, 0)).1) := rfl
  simp only [h0, decide_eq_true_eq, Val.num.injEq]
  intro hteq
  apply ht
  rw [← hteq]
  have hmem : (productIndex timeA latA lonA).getD i (0, 0, 0) ∈
      productIndex timeA latA lonA := by
    apply getD_mem
    rw [length_productIndex]
    exact hi
  exact (mem_productIndex _ _ _ _ hmem).1

/-! ### Cells of standard rows, shapes -/

theorem cell_cons3 (a b c : Val) (vals : List Val) (i : Nat) :
    DataFrame.cell (a :: b :: c :: vals) (i + 3) = DataFrame.cell vals i := by
  show (a :: b :: c :: vals).getD (i + 3) (Val.num 0) = vals.getD i (Val.num 0)
  have h3 : i + 3 = i + 1 + 1 + 1 := by omega
  rw [h3, List.getD_cons_succ, List.getD_cons_succ, List.getD_cons_succ]

theorem exactShape_flatten_length (v : NCVar) (nt nlat nlon : Nat)
    (h : ExactShape v nt nlat nlon) :
    v.data.flatten.length = nt * (nlat * nlon) := by
  obtain ⟨g, hd, hlen, hp⟩ := h
  rw [hd]
  show ((g.map List.flatten).flatten).length = _
  rw [length_flatten_const (nlat * nlon) (g.map List.flatten)]
  · simp [hlen]
  · intro x hx
    obtain ⟨p, hpg, rfl⟩ := List.mem_map.mp hx
    rw [length_flatten_const nlon p (fun r hr => (hp p hpg).2 r hr), (hp p hpg).1]

/-- The value of claim C2's grid-cell expression for variable `x`. -/
theorem varByLong_grid (file : NCFile) (x : String) (v : NCVar)
    (hv : v ∈ file.vars) (hx : v.long_name = x)
    (hndl : (file.vars.map NCVar.long_name).Nodup) :
    (varByLong x file.vars).getD noVar = v := by
  rw [← hx, varByLong_eq_of_mem v hv hndl]
  rfl

/-! ### Claim C3 -/

/-- C3: Construction builds the flattened table with one row per
`(time, lat, lon)` element of the Cartesian product of the three axes, in
product order (`time` slowest, then `lat`, then `lon`), and assigns a
column to every variable other than the three coordinate axes (identified
by their long names), with that variable's flattened grid values aligned
in the same product order.  Hypotheses require a well-formed file:
distinct variable long/short names, every data column of full flattened
length, and no data variable reusing an index-column name. -/
theorem convert2dataframe_product_order
    (fs : FileSys) (fname : String) (file : NCFile)
    (timeA latA lonA : List ℚ) (d : DataSet)
    (hopen : fs fname = some file)
    (hlon : file.getAxis "lon" = .ok lonA)
    (hlat : file.getAxis "lat" = .ok latA)
    (htime : file.getAxis "time" = .ok timeA)
    (hndl : (file.vars.map NCVar.long_name).Nodup)
    (hnds : (file.vars.map NCVar.name).Nodup)
    (hlen : ∀ v ∈ dataVars file,
      v.data.flatten.length = timeA.length * (latA.length * lonA.length))
    (hnames : ∀ v ∈ dataVars file,
      ¬ v.long_name ∈ (["time", "lat", "lon"] : List String))
    (hinit : DataSet.init fs fname = .ok d) :
    ∃ df, d.df = some df ∧
      df.cols = "time" :: "lat" :: "lon" :: (dataVars file).map NCVar.long_name ∧
      df.rows.length = timeA.length * (latA.length * lonA.length) ∧
      ∀ it ila ilo : Nat, it < timeA.length → ila < latA.length →
        ilo < lonA.length →
        df.rows.getD
            (it * (latA.length * lonA.length) + (ila * lonA.length + ilo)) [] =
          Val.num (timeA.getD it 0) :: Val.num (latA.getD ila 0) ::
          Val.num (lonA.getD ilo 0) ::
          (dataVars file).map (fun v => Val.num (v.data.flatten.getD
            (it * (latA.length * lonA.length) + (ila * lonA.length + ilo)) 0)) := by
  have hbuilt := init_built fs fname file timeA latA lonA hopen hlon hlat htime
    hndl hnds hlen hnames
  rw [hinit] at hbuilt
  have hd : d = _ := Except.ok.inj hbuilt
  subst hd
  refine ⟨builtDF file timeA latA lonA, rfl, rfl, builtDF_rows_length file timeA latA lonA, ?_⟩
  intro it ila ilo hit hila hilo
  exact builtDF_row file timeA latA lonA it ila ilo hit hila hilo

/-! ### Claim C2 -/

/-- C2: For every loaded DataSet and every `(lat, lon)` pair with `lat` in
the valid-latitude set and `lon` in the valid-longitude set,
`coord_timeseries(lat, lon, vars)` returns exactly as many rows as there
are distinct time values in the file, each row carrying the requested
variables taken from the grid cell at that `(time, lat, lon)`.
Hypotheses spell out a well-formed grid file (distinct axis values,
distinct variable names, every data variable of exact
`(time, lat, lon)` shape) and name the positions `ila`, `ilo` of the
queried coordinates on the axes. -/
theorem coord_timeseries_valid_rows
    (fs : FileSys) (fname : String) (file : NCFile)
    (timeA latA lonA : List ℚ) (d : DataSet)
    (hopen : fs fname = some file)
    (hlon : file.getAxis "lon" = .ok lonA)
    (hlat : file.getAxis "lat" = .ok latA)
    (htime : file.getAxis "time" = .ok timeA)
    (hndl : (file.vars.map NCVar.long_name).Nodup)
    (hnds : (file.vars.map NCVar.name).Nodup)
    (hshape : ∀ v ∈ dataVars file,
      ExactShape v timeA.length latA.length lonA.length)
    (hnames : ∀ v ∈ dataVars file,
      ¬ v.long_name ∈ (["time", "lat", "lon"] : List String))
    (hinit : DataSet.init fs fname = .ok d)
    (hndt : timeA.Nodup) (hndla : latA.Nodup) (hndlo : lonA.Nodup)
    (lat lon : ℚ) (ila ilo : Nat)
    (hila : ila < latA.length) (hilo : ilo < lonA.length)
    (hlat_at : latA.getD ila 0 = lat) (hlon_at : lonA.getD ilo 0 = lon)
    (hlatmem : lat ∈ d.lat_set) (hlonmem : lon ∈ d.lon_set)
    (vars : List String)
    (hvx : ∀ x ∈ vars, ∃ v ∈ dataVars file, v.long_name = x) :
    ∃ res, d.coord_timeseries lat lon vars = .ok res ∧
      res.cols = "time" :: vars ∧
      res.rows.length = timeA.dedup.length ∧
      res.rows = (List.range timeA.length).map (fun it =>
        Val.num (timeA.getD it 0) :: vars.map (fun x =>
          Val.num (((((varByLong x file.vars).getD noVar).grid3.getD it []).getD
            ila []).getD ilo 0))) := by
  have hlen : ∀ v ∈ dataVars file,
      v.data.flatten.length = timeA.length * (latA.length * lonA.length) :=
    fun v hv => exactShape_flatten_length v _ _ _ (hshape v hv)
  have hbuilt := init_built fs fname file timeA latA lonA hopen hlon hlat htime
    hndl hnds hlen hnames
  rw [hinit] at hbuilt
  have hd : d = _ := Except.ok.inj hbuilt
  subst hd
  set F := ((builtDF file timeA latA lonA).filterEq "lat" (Val.num lat)).filterEq
    "lon" (Val.num lon) with hF
  have hFcols : ∀ c : String, F.colIdx c = (builtDF file timeA latA lonA).colIdx c :=
    fun c => rfl
  have hsome : ∀ c ∈ ("time" :: vars), (F.colIdx c).isSome := by
    intro c hc
    rcases List.mem_cons.mp hc with h | h
    · subst h
      rw [hFcols, builtDF_colIdx_time]
      rfl
    · obtain ⟨v, hv, hvl⟩ := hvx c h
      rw [hFcols]
      apply idxOf?_of_mem
      show c ∈ ["time", "lat", "lon"] ++ (dataVars file).map NCVar.long_name
      apply List.mem_append_right
      exact List.mem_map.mpr ⟨v, hv, hvl⟩
  have hsel := DataFrame.select_ok F ("time" :: vars) hsome
  have hquery : DataSet.coord_timeseries
      { dim_dict := dimDictOf file,
        var_dict := file.vars.map fun v => (v.long_name, v.name),
        df := some (builtDF file timeA latA lonA),
        lat_set := (DataSet.createCoords (builtDF file timeA latA lonA)).1,
        lon_set := (DataSet.createCoords (builtDF file timeA latA lonA)).2 }
      lat lon vars = F.select ("time" :: vars) := by
    unfold DataSet.coord_timeseries
    rw [if_pos ⟨hlonmem, hlatmem⟩]
  have hfrows := builtDF_filterEq_coords file timeA latA lonA lat lon ila ilo
    hndla hndlo hila hilo hlat_at hlon_at
  have hrows_eq : F.rows.map (fun r => ("time" :: vars).map fun c =>
        DataFrame.cell r ((F.colIdx c).getD 0)) =
      (List.range timeA.length).map (fun it =>
        Val.num (timeA.getD it 0) :: vars.map (fun x =>
          Val.num (((((varByLong x file.vars).getD noVar).grid3.getD it []).getD
            ila []).getD ilo 0))) := by
    rw [show F.rows = (((builtDF file timeA latA lonA).filterEq "lat"
      (Val.num lat)).filterEq "lon" (Val.num lon)).rows from rfl, hfrows,
      List.map_map]
    apply List.map_congr_left
    intro it hit
    rw [List.mem_range] at hit
    simp only [Function.comp]
    rw [builtDF_row file timeA latA lonA it ila ilo hit hila hilo]
    rw [List.map_cons]
    congr 1
    apply List.map_congr_left
    intro x hx
    obtain ⟨v, hv, hvl⟩ := hvx x hx
    have hxne : ¬ "time" = x ∧ ¬ "lat" = x ∧ ¬ "lon" = x := by
      refine ⟨?_, ?_, ?_⟩ <;> intro he <;> exact hnames v hv (by rw [hvl, ← he]; simp)
    have hxmem : x ∈ (dataVars file).map NCVar.long_name :=
      List.mem_map.mpr ⟨v, hv, hvl⟩
    obtain ⟨i, hi⟩ := Option.isSome_iff_exists.mp (idxOf?_of_mem hxmem)
    obtain ⟨hilen, hival⟩ := idxOf?_eq_some hi
    rw [List.length_map] at hilen
    have hv0mem : (dataVars file).getD i noVar ∈ dataVars file :=
      getD_mem _ _ _ hilen
    have hv0long : ((dataVars file).getD i noVar).long_name = x := by
      rw [← hival, getD_map_of_lt NCVar.long_name (dataVars file) i "" noVar hilen]
    rw [hFcols, builtDF_colIdx_data file timeA latA lonA x hxne.1 hxne.2.1
      hxne.2.2 i hi]
    rw [show (some (i + 3)).getD 0 = i + 3 from rfl]
    rw [cell_cons3]
    rw [show DataFrame.cell ((dataVars file).map fun v =>
      Val.num (v.data.flatten.getD
        (it * (latA.length * lonA.length) + (ila * lonA.length + ilo)) 0)) i =
      ((dataVars file).map fun v => Val.num (v.data.flatten.getD
        (it * (latA.length * lonA.length) + (ila * lonA.length + ilo)) 0)).getD
        i (Val.num 0) from rfl]
    rw [getD_map_of_lt _ (dataVars file) i (Val.num 0) noVar hilen]
    obtain ⟨g, hg3, hglen, hgp⟩ := hshape _ hv0mem
    rw [varByLong_grid file x ((dataVars file).getD i noVar)
      (List.mem_of_mem_filter hv0mem) hv0long hndl]
    rw [show ((dataVars file).getD i noVar).grid3 = g by
      unfold NCVar.grid3
      rw [hg3]]
    rw [hg3]
    rw [flatten3_getD g timeA.length latA.length lonA.length hglen hgp
      it ila ilo hit hila hilo]
  refine ⟨⟨"time" :: vars, F.rows.map fun r => ("time" :: vars).map fun c =>
    DataFrame.cell r ((F.colIdx c).getD 0)⟩, by rw [hquery, hsel], rfl, ?_, hrows_eq⟩
  show (F.rows.map fun r => ("time" :: vars).map fun c =>
    DataFrame.cell r ((F.colIdx c).getD 0)).length = timeA.dedup.length
  rw [hrows_eq, List.length_map, List.length_range, List.Nodup.dedup hndt]

/-! ### Claim C5 -/

/-- C5: For every loaded DataSet and every time value `t`,
`time_slice(t, var)` returns exactly the rows whose time column equals
`t`, restricted to the columns `lat`, `lon` and the requested variable —
one row per `(lat, lon)` pair when `t` occurs on the time axis (at
position `it0`), and an empty table, with no error raised, when no row
has time `t`.  No coordinate or time validation is performed.
Hypotheses spell out a well-formed grid file as in C2/C3. -/
theorem time_slice_exact_rows
    (fs : FileSys) (fname : String) (file : NCFile)
    (timeA latA lonA : List ℚ) (d : DataSet)
    (hopen : fs fname = some file)
    (hlon : file.getAxis "lon" = .ok lonA)
    (hlat : file.getAxis "lat" = .ok latA)
    (htime : file.getAxis "time" = .ok timeA)
    (hndl : (file.vars.map NCVar.long_name).Nodup)
    (hnds : (file.vars.map NCVar.name).Nodup)
    (hshape : ∀ v ∈ dataVars file,
      ExactShape v timeA.length latA.length lonA.length)
    (hnames : ∀ v ∈ dataVars file,
      ¬ v.long_name ∈ (["time", "lat", "lon"] : List String))
    (hinit : DataSet.init fs fname = .ok d)
    (hndt : timeA.Nodup)
    (var : String) (hvar : ∃ v ∈ dataVars file, v.long_name = var)
    (t : ℚ) :
    (t ∉ timeA → d.time_slice t var = .ok ⟨["lat", "lon", var], []⟩) ∧
    (∀ it0 : Nat, it0 < timeA.length → timeA.getD it0 0 = t →
      ∃ res, d.time_slice t var = .ok res ∧
        res.cols = ["lat", "lon", var] ∧
        res.rows = (List.range (latA.length * lonA.length)).map (fun j =>
          [Val.num (latA.getD (j / lonA.length) 0),
           Val.num (lonA.getD (j % lonA.length) 0),
           Val.num (((((varByLong var file.vars).getD noVar).grid3.getD it0 []).getD
             (j / lonA.length) []).getD (j % lonA.length) 0)])) := by
  have hlen : ∀ v ∈ dataVars file,
      v.data.flatten.length = timeA.length * (latA.length * lonA.length) :=
    fun v hv => exactShape_flatten_length v _ _ _ (hshape v hv)
  have hbuilt := init_built fs fname file timeA latA lonA hopen hlon hlat htime
    hndl hnds hlen hnames
  rw [hinit] at hbuilt
  have hd : d = _ := Except.ok.inj hbuilt
  subst hd
  obtain ⟨v, hv, hvl⟩ := hvar
  have hxne : ¬ "time" = var ∧ ¬ "lat" = var ∧ ¬ "lon" = var := by
    refine ⟨?_, ?_, ?_⟩ <;> intro he <;>
      exact hnames v hv (by rw [hvl, ← he]; simp)
  have hxmem : var ∈ (dataVars file).map NCVar.long_name :=
    List.mem_map.mpr ⟨v, hv, hvl⟩
  obtain ⟨i, hi⟩ := Option.isSome_iff_exists.mp (idxOf?_of_mem hxmem)
  obtain ⟨hilen, hival⟩ := idxOf?_eq_some hi
  rw [List.length_map] at hilen
  have hv0mem : (dataVars file).getD i noVar ∈ dataVars file :=
    getD_mem _ _ _ hilen
  have hv0long : ((dataVars file).getD i noVar).long_name = var := by
    rw [← hival, getD_map_of_lt NCVar.long_name (dataVars file) i "" noVar hilen]
  have hsome : ∀ (G : DataFrame), G.colIdx "lat" =
        (builtDF file timeA latA lonA).colIdx "lat" →
        G.colIdx "lon" = (builtDF file timeA latA lonA).colIdx "lon" →
        G.colIdx var = (builtDF file timeA latA lonA).colIdx var →
      ∀ c ∈ (["lat", "lon", var] : List String), (G.colIdx c).isSome := by
    intro G h1 h2 h3 c hc
    rcases List.mem_cons.mp hc with rfl | hc
    · rw [h1, builtDF_colIdx_lat]; rfl
    rcases List.mem_cons.mp hc with rfl | hc
    · rw [h2, builtDF_colIdx_lon]; rfl
    rcases List.mem_cons.mp hc with rfl | hc
    · rw [h3]
      apply idxOf?_of_mem
      show c ∈ ["time", "lat", "lon"] ++ (dataVars file).map NCVar.long_name
      exact List.mem_append_right _ hxmem
    · simp at hc
  constructor
  · -- t absent from the time axis: zero rows, no error
    intro ht
    unfold DataSet.time_slice
    show ((builtDF file timeA latA lonA).filterEq "time" (Val.num t)).select
      ["lat", "lon", var] = _
    rw [DataFrame.select_ok
      ((builtDF file timeA latA lonA).filterEq "time" (Val.num t))
      ["lat", "lon", var]
      (hsome ((builtDF file timeA latA lonA).filterEq "time" (Val.num t))
        rfl rfl rfl)]
    rw [show ((builtDF file timeA latA lonA).filterEq "time" (Val.num t)).rows = []
      from builtDF_filterEq_time_absent file timeA latA lonA t ht]
    rfl
  · -- t present at position it0: the it0-th block of nlat*nlon rows
    intro it0 hit0 ht_at
    set F := (builtDF file timeA latA lonA).filterEq "time" (Val.num t) with hF
    have hsel := DataFrame.select_ok F ["lat", "lon", var] (hsome F rfl rfl rfl)
    have hfrows := builtDF_filterEq_time file timeA latA lonA t it0 hndt hit0 ht_at
    have hrows_eq : F.rows.map (fun r => (["lat", "lon", var]).map fun c =>
          DataFrame.cell r ((F.colIdx c).getD 0)) =
        (List.range (latA.length * lonA.length)).map (fun j =>
          [Val.num (latA.getD (j / lonA.length) 0),
           Val.num (lonA.getD (j % lonA.length) 0),
           Val.num (((((varByLong var file.vars).getD noVar).grid3.getD it0 []).getD
             (j / lonA.length) []).getD (j % lonA.length) 0)]) := by
      rw [show F.rows = ((builtDF file timeA latA lonA).filterEq "time"
        (Val.num t)).rows from rfl, hfrows, List.map_map]
      apply List.map_congr_left
      intro j hj
      rw [List.mem_range] at hj
      simp only [Function.comp]
      have hKpos : 0 < latA.length * lonA.length := by omega
      have hnlon : 0 < lonA.length := by
        rcases Nat.eq_zero_or_pos lonA.length with h | h
        · rw [h, Nat.mul_zero] at hKpos; omega
        · exact h
      have hjla : j / lonA.length < latA.length :=
        (Nat.div_lt_iff_lt_mul hnlon).mpr hj
      have hjlo : j % lonA.length < lonA.length := Nat.mod_lt j hnlon
      have hjdecomp : it0 * (latA.length * lonA.length) + j =
          it0 * (latA.length * lonA.length) +
            (j / lonA.length * lonA.length + j % lonA.length) := by
        conv_lhs => rw [show j = lonA.length * (j / lonA.length) + j % lonA.length
          from (Nat.div_add_mod j lonA.length).symm]
        ring
      rw [hjdecomp,
        builtDF_row file timeA latA lonA it0 (j / lonA.length) (j % lonA.length)
          hit0 hjla hjlo]
      have hc1 : (F.colIdx "lat").getD 0 = 1 := by
        rw [show F.colIdx "lat" = (builtDF file timeA latA lonA).colIdx "lat"
          from rfl, builtDF_colIdx_lat]
        rfl
      have hc2 : (F.colIdx "lon").getD 0 = 2 := by
        rw [show F.colIdx "lon" = (builtDF file timeA latA lonA).colIdx "lon"
          from rfl, builtDF_colIdx_lon]
        rfl
      have hc3 : (F.colIdx var).getD 0 = i + 3 := by
        rw [show F.colIdx var = (builtDF file timeA latA lonA).colIdx var
          from rfl, builtDF_colIdx_data file timeA latA lonA var hxne.1 hxne.2.1
          hxne.2.2 i hi]
        rfl
      rw [List.map_cons, List.map_cons, List.map_cons, List.map_nil, hc1, hc2, hc3]
      rw [show DataFrame.cell (Val.num (timeA.getD it0 0) ::
        Val.num (latA.getD (j / lonA.length) 0) ::
        Val.num (lonA.getD (j % lonA.length) 0) ::
        (dataVars file).map (fun v => Val.num (v.data.flatten.getD
          (it0 * (latA.length * lonA.length) +
            (j / lonA.length * lonA.length + j % lonA.length)) 0))) 1 =
        Val.num (latA.getD (j / lonA.length) 0) from rfl]
      rw [show DataFrame.cell (Val.num (timeA.getD it0 0) ::
        Val.num (latA.getD (j / lonA.length) 0) ::
        Val.num (lonA.getD (j % lonA.length) 0) ::
        (dataVars file).map (fun v => Val.num (v.data.flatten.getD
          (it0 * (latA.length * lonA.length) +
            (j / lonA.length * lonA.length + j % lonA.length)) 0))) 2 =
        Val.num (lonA.getD (j % lonA.length) 0) from rfl]
      rw [cell_cons3]
      rw [show DataFrame.cell ((dataVars file).map fun v =>
        Val.num (v.data.flatten.getD
          (it0 * (latA.length * lonA.length) +
            (j / lonA.length * lonA.length + j % lonA.length)) 0)) i =
        ((dataVars file).map fun v => Val.num (v.data.flatten.getD
          (it0 * (latA.length * lonA.length) +
            (j / lonA.length * lonA.length + j % lonA.length)) 0)).getD
          i (Val.num 0) from rfl]
      rw [getD_map_of_lt _ (dataVars file) i (Val.num 0) noVar hilen]
      obtain ⟨g, hg3, hglen, hgp⟩ := hshape _ hv0mem
      rw [varByLong_grid file var ((dataVars file).getD i noVar)
        (List.mem_of_mem_filter hv0mem) hv0long hndl]
      rw [show ((dataVars file).getD i noVar).grid3 = g by
        unfold NCVar.grid3
        rw [hg3]]
      rw [hg3]
      rw [flatten3_getD g timeA.length latA.length lonA.length hglen hgp
        it0 (j / lonA.length) (j % lonA.length) hit0 hjla hjlo]
    refine ⟨⟨["lat", "lon", var], F.rows.map fun r => (["lat", "lon", var]).map
      fun c => DataFrame.cell r ((F.colIdx c).getD 0)⟩, ?_, rfl, hrows_eq⟩
    unfold DataSet.time_slice
    exact hsel

/-! ### Claims C4, C9, C10 -/

/-- C4: For every loaded DataSet, if `lat` is not a member of the
valid-latitude set or `lon` is not a member of the valid-longitude set,
`coord_timeseries(lat, lon, vars)` returns an empty table (zero rows) and
raises no error. -/
theorem coord_timeseries_invalid_empty (d : DataSet) (lat lon : ℚ)
    (vl : List String) (h : lat ∉ d.lat_set ∨ lon ∉ d.lon_set) :
    d.coord_timeseries lat lon vl = .ok DataFrame.empty := by
  unfold DataSet.coord_timeseries
  rw [if_neg]
  rintro ⟨h1, h2⟩
  rcases h with h | h
  · exact h h2
  · exact h h1

/-- C9: Constructing a DataSet from a file path that cannot be opened
(or whose container is malformed, so that the netCDF library rejects it)
fails with the `DataSourceError` (`NameError('IOError')` in the source),
and no DataSet object is produced. -/
theorem init_fails_nameError (fs : FileSys) (f : String) (h : fs f = none) :
    DataSet.init fs f = .error .nameError ∧
      ∀ d : DataSet, DataSet.init fs f ≠ .ok d := by
  have he : DataSet.init fs f = .error .nameError := by
    unfold DataSet.init
    rw [h]
  refine ⟨he, fun d hd => ?_⟩
  rw [he] at hd
  exact Except.noConfusion hd

/-- C10: After `release()`, a `coord_timeseries` query at coordinates in
the valid sets, or a `time_slice` query at any time, fails with an error
(the table is `None`, so `.loc` raises `AttributeError`) rather than
returning an empty result, while `get_dim_dict` and `get_var_dict` still
return the metadata unchanged. -/
theorem release_then_query_errors (d : DataSet) (lat lon : ℚ)
    (vl : List String) (t : ℚ) (v : String)
    (hla : lat ∈ d.lat_set) (hlo : lon ∈ d.lon_set) :
    d.release.coord_timeseries lat lon vl = .error .attributeError ∧
    d.release.time_slice t v = .error .attributeError ∧
    d.release.get_dim_dict = d.get_dim_dict ∧
    d.release.get_var_dict = d.get_var_dict := by
  refine ⟨?_, rfl, rfl, rfl⟩
  unfold DataSet.coord_timeseries
  rw [if_pos ⟨hlo, hla⟩]
  rfl

/-! ### Claim C1 -/

/-- C1 (counterexample): on a file that fails to load, the multi-file
query does NOT propagate the `DataSourceError` — `_load_dataset` swallows
the construction error, and the query then aborts with a `KeyError` from
the missing cache entry. -/
theorem time_series_error_not_DataSourceError :
    DataSet.init exFS "missing" = .error .nameError ∧
    (DataLoader.time_series exFS DataLoader.mk0 ["missing"] 32.5 35
      ["total_precipitation"] true).1 = .error .keyError ∧
    (DataLoader.time_slice_daily exFS DataLoader.mk0 ["missing"] 0
      "total_precipitation" true).1 = .error .keyError ∧
    PyErr.keyError ≠ PyErr.nameError := by
  exact ⟨rfl, rfl, rfl, by decide⟩

/-- C1 (amended): when the multi-file loop reaches a file that is not
cached and whose construction fails, the construction error is swallowed
by `_load_dataset`; the query then aborts with a `KeyError` (not the
`DataSourceError`), discarding all rows accumulated so far, and the cache
is left exactly as it was — in particular without any entry for the
failing file. -/
theorem load_failure_aborts_with_keyError
    (fs : FileSys) (st : DataLoader) (f : String) (rest : List String)
    (lat lon : ℚ) (vl : List String) (cache : Bool) (t : ℚ) (v : String)
    (acc acc' : DataFrame)
    (hmem : Dict.member st.ds_dict f = false)
    (e : PyErr) (hfail : DataSet.init fs f = .error e) :
    DataLoader.timeSeriesLoop fs lat lon vl cache (f :: rest) st acc =
      (.error .keyError, ⟨st.ds_dict, st.loadCount + 1⟩) ∧
    DataLoader.timeSliceLoop fs t v cache (f :: rest) st acc' =
      (.error .keyError, ⟨st.ds_dict, st.loadCount + 1⟩) ∧
    Dict.member st.ds_dict f = false := by
  have hload : DataLoader.load_dataset fs st f =
      ⟨st.ds_dict, st.loadCount + 1⟩ := by
    unfold DataLoader.load_dataset
    rw [hfail]
  have hlook : Dict.lookup st.ds_dict f = none :=
    Dict.lookup_eq_none_of_not_member st.ds_dict f hmem
  refine ⟨?_, ?_, hmem⟩
  · rw [DataLoader.timeSeriesLoop]
    rw [if_neg (by rw [hmem]; exact Bool.false_ne_true), hload]
    show (match Dict.lookup st.ds_dict f with
      | none => (Except.error PyErr.keyError,
          (⟨st.ds_dict, st.loadCount + 1⟩ : DataLoader))
      | some ds =>
        match ds.coord_timeseries lat lon vl with
        | .error e => (.error e, (⟨st.ds_dict, st.loadCount + 1⟩ : DataLoader))
        | .ok curr =>
          DataLoader.timeSeriesLoop fs lat lon vl cache rest
            (if cache then (⟨st.ds_dict, st.loadCount + 1⟩ : DataLoader)
             else ⟨Dict.erase st.ds_dict f, st.loadCount + 1⟩)
            (acc.concat curr)) = _
    rw [hlook]
  · rw [DataLoader.timeSliceLoop]
    rw [if_neg (by rw [hmem]; exact Bool.false_ne_true), hload]
    show (match Dict.lookup st.ds_dict f with
      | none => (Except.error PyErr.keyError,
          (⟨st.ds_dict, st.loadCount + 1⟩ : DataLoader))
      | some ds =>
        match ds.time_slice t v with
        | .error e => (.error e, (⟨st.ds_dict, st.loadCount + 1⟩ : DataLoader))
        | .ok curr =>
          DataLoader.timeSliceLoop fs t v cache rest
            (if cache then (⟨st.ds_dict, st.loadCount + 1⟩ : DataLoader)
             else ⟨Dict.erase st.ds_dict f, st.loadCount + 1⟩)
            (acc'.concat (curr.addConstCol "FileName" (Val.str f)))) = _
    rw [hlook]

/-! ### The multi-file loops: cache-shape lemmas -/

theorem nodup_keys_load (fs : FileSys) (st : DataLoader) (f : String)
    (h : (Dict.keys st.ds_dict).Nodup) :
    (Dict.keys (DataLoader.load_dataset fs st f).ds_dict).Nodup := by
  unfold DataLoader.load_dataset
  split
  · exact Dict.nodup_keys_insert _ _ _ h
  · exact h

theorem timeSeriesLoop_nodup (fs : FileSys) (lat lon : ℚ) (vl : List String)
    (cache : Bool) :
    ∀ (files : List String) (st : DataLoader) (acc : DataFrame),
      (Dict.keys st.ds_dict).Nodup →
      (Dict.keys
        (DataLoader.timeSeriesLoop fs lat lon vl cache files st acc).2.ds_dict).Nodup
  | [], _, _, h => h
  | f :: rest, st, acc, h => by
    simp only [DataLoader.timeSeriesLoop]
    have h1 : (Dict.keys (if Dict.member st.ds_dict f = true then st
        else DataLoader.load_dataset fs st f).ds_dict).Nodup := by
      split
      · exact h
      · exact nodup_keys_load fs st f h
    split
    · exact h1
    split
    · exact h1
    apply timeSeriesLoop_nodup fs lat lon vl cache rest
    split
    · exact h1
    · exact Dict.nodup_keys_erase _ _ h1

theorem timeSliceLoop_nodup (fs : FileSys) (t : ℚ) (v : String)
    (cache : Bool) :
    ∀ (files : List String) (st : DataLoader) (acc : DataFrame),
      (Dict.keys st.ds_dict).Nodup →
      (Dict.keys
        (DataLoader.timeSliceLoop fs t v cache files st acc).2.ds_dict).Nodup
  | [], _, _, h => h
  | f :: rest, st, acc, h => by
    simp only [DataLoader.timeSliceLoop]
    have h1 : (Dict.keys (if Dict.member st.ds_dict f = true then st
        else DataLoader.load_dataset fs st f).ds_dict).Nodup := by
      split
      · exact h
      · exact nodup_keys_load fs st f h
    split
    · exact h1
    split
    · exact h1
    apply timeSliceLoop_nodup fs t v cache rest
    split
    · exact h1
    · exact Dict.nodup_keys_erase _ _ h1

theorem member_load (fs : FileSys) (st : DataLoader) (f g : String)
    (h : Dict.member (DataLoader.load_dataset fs st f).ds_dict g = true) :
    Dict.member st.ds_dict g = true ∨ g = f := by
  unfold DataLoader.load_dataset at h
  split at h
  · simp only [Dict.member_insert] at h
    by_cases hgf : g = f
    · exact Or.inr hgf
    · rw [if_neg hgf] at h
      exact Or.inl h
  · exact Or.inl h

theorem member_st1 (fs : FileSys) (st : DataLoader) (f g : String)
    (h : Dict.member (if Dict.member st.ds_dict f = true then st
      else DataLoader.load_dataset fs st f).ds_dict g = true) :
    Dict.member st.ds_dict g = true ∨ g = f := by
  split at h
  · exact Or.inl h
  · exact member_load fs st f g h

theorem member_evict {st1 : DataLoader} {f g : String} {cache : Bool}
    (h : Dict.member (if cache = true then st1
      else (⟨Dict.erase st1.ds_dict f, st1.loadCount⟩ : DataLoader)).ds_dict g
      = true) :
    Dict.member st1.ds_dict g = true := by
  split at h
  · exact h
  · simp only [Dict.member_erase] at h
    split at h
    · exact absurd h (by simp)
    · exact h

theorem timeSeriesLoop_member_mono (fs : FileSys) (lat lon : ℚ)
    (vl : List String) (cache : Bool) :
    ∀ (files : List String) (st : DataLoader) (acc : DataFrame) (g : String),
      Dict.member
          (DataLoader.timeSeriesLoop fs lat lon vl cache files st acc).2.ds_dict g
        = true →
      Dict.member st.ds_dict g = true ∨ g ∈ files
  | [], _, _, _, h => Or.inl h
  | f :: rest, st, acc, g, h => by
    simp only [DataLoader.timeSeriesLoop] at h
    split at h
    · rcases member_st1 fs st f g h with h' | h'
      · exact Or.inl h'
      · exact Or.inr (h' ▸ List.mem_cons_self f rest)
    split at h
    · rcases member_st1 fs st f g h with h' | h'
      · exact Or.inl h'
      · exact Or.inr (h' ▸ List.mem_cons_self f rest)
    · rcases timeSeriesLoop_member_mono fs lat lon vl cache rest _ _ g h with h' | h'
      · rcases member_st1 fs st f g (member_evict h') with h'' | h''
        · exact Or.inl h''
        · exact Or.inr (h'' ▸ List.mem_cons_self f rest)
      · exact Or.inr (List.mem_cons_of_mem f h')

theorem timeSliceLoop_member_mono (fs : FileSys) (t : ℚ) (v : String)
    (cache : Bool) :
    ∀ (files : List String) (st : DataLoader) (acc : DataFrame) (g : String),
      Dict.member
          (DataLoader.timeSliceLoop fs t v cache files st acc).2.ds_dict g
        = true →
      Dict.member st.ds_dict g = true ∨ g ∈ files
  | [], _, _, _, h => Or.inl h
  | f :: rest, st, acc, g, h => by
    simp only [DataLoader.timeSliceLoop] at h
    split at h
    · rcases member_st1 fs st f g h with h' | h'
      · exact Or.inl h'
      · exact Or.inr (h' ▸ List.mem_cons_self f rest)
    split at h
    · rcases member_st1 fs st f g h with h' | h'
      · exact Or.inl h'
      · exact Or.inr (h' ▸ List.mem_cons_self f rest)
    · rcases timeSliceLoop_member_mono fs t v cache rest _ _ g h with h' | h'
      · rcases member_st1 fs st f g (member_evict h') with h'' | h''
        · exact Or.inl h''
        · exact Or.inr (h'' ▸ List.mem_cons_self f rest)
      · exact Or.inr (List.mem_cons_of_mem f h')

theorem timeSeriesLoop_evict (fs : FileSys) (lat lon : ℚ) (vl : List String) :
    ∀ (files : List String) (st : DataLoader) (acc res : DataFrame)
      (st' : DataLoader),
      DataLoader.timeSeriesLoop fs lat lon vl false files st acc = (.ok res, st') →
      ∀ f ∈ files, Dict.member st'.ds_dict f = false
  | [], _, _, _, _, _, f, hf => absurd hf (List.not_mem_nil f)
  | f0 :: rest, st, acc, res, st', h, f, hf => by
    simp only [DataLoader.timeSeriesLoop] at h
    split at h
    · injection h with h1 h2
      exact Except.noConfusion h1
    split at h
    · injection h with h1 h2
      exact Except.noConfusion h1
    · rcases List.mem_cons.mp hf with rfl | hfr
      · by_cases hin : f ∈ rest
        · exact timeSeriesLoop_evict fs lat lon vl rest _ _ res st' h f hin
        · cases hm : Dict.member st'.ds_dict f with
          | false => rfl
          | true =>
            exfalso
            have hmono := timeSeriesLoop_member_mono fs lat lon vl false rest _ _ f
              (by rw [h]; exact hm)
            rcases hmono with h' | h'
            · have : Dict.member (Dict.erase
                  (if Dict.member st.ds_dict f = true then st
                    else DataLoader.load_dataset fs st f).ds_dict f)
                  f = true := by
                simpa using h'
              rw [Dict.member_erase] at this
              simp at this
            · exact hin h'
      · exact timeSeriesLoop_evict fs lat lon vl rest _ _ res st' h f hfr

theorem timeSliceLoop_evict (fs : FileSys) (t : ℚ) (v : String) :
    ∀ (files : List String) (st : DataLoader) (acc res : DataFrame)
      (st' : DataLoader),
      DataLoader.timeSliceLoop fs t v false files st acc = (.ok res, st') →
      ∀ f ∈ files, Dict.member st'.ds_dict f = false
  | [], _, _, _, _, _, f, hf => absurd hf (List.not_mem_nil f)
  | f0 :: rest, st, acc, res, st', h, f, hf => by
    simp only [DataLoader.timeSliceLoop] at h
    split at h
    · injection h with h1 h2
      exact Except.noConfusion h1
    split at h
    · injection h with h1 h2
      exact Except.noConfusion h1
    · rcases List.mem_cons.mp hf with rfl | hfr
      · by_cases hin : f ∈ rest
        · exact timeSliceLoop_evict fs t v rest _ _ res st' h f hin
        · cases hm : Dict.member st'.ds_dict f with
          | false => rfl
          | true =>
            exfalso
            have hmono := timeSliceLoop_member_mono fs t v false rest _ _ f
              (by rw [h]; exact hm)
            rcases hmono with h' | h'
            · have : Dict.member (Dict.erase
                  (if Dict.member st.ds_dict f = true then st
                    else DataLoader.load_dataset fs st f).ds_dict f)
                  f = true := by
                simpa using h'
              rw [Dict.member_erase] at this
              simp at this
            · exact hin h'
      · exact timeSliceLoop_evict fs t v rest _ _ res st' h f hfr

/-- The cache invariant: every cached entry is the DataSet that loading
its key produces. -/
def CacheWF (fs : FileSys) (st : DataLoader) : Prop :=
  ∀ f d, Dict.lookup st.ds_dict f = some d → DataSet.init fs f = .ok d

theorem cacheWF_evict {fs : FileSys} {st1 : DataLoader} {f : String}
    {cache : Bool} (hinv : CacheWF fs st1) :
    CacheWF fs (if cache = true then st1
      else (⟨Dict.erase st1.ds_dict f, st1.loadCount⟩ : DataLoader)) := by
  intro g d hg
  split at hg
  · exact hinv g d hg
  · simp only [Dict.lookup_erase] at hg
    split at hg
    · exact Option.noConfusion hg
    · exact hinv g d hg

theorem timeSeriesLoop_concat (fs : FileSys) (lat lon : ℚ) (vl : List String)
    (cache : Bool) :
    ∀ (files : List String) (st : DataLoader) (acc : DataFrame),
      CacheWF fs st →
      (∀ f ∈ files, ∃ d, DataSet.init fs f = .ok d ∧
        ∃ df, d.coord_timeseries lat lon vl = .ok df) →
      ∃ R st', DataLoader.timeSeriesLoop fs lat lon vl cache files st acc =
          (.ok R, st') ∧
        R.rows = acc.rows ++ (files.map (perFileTS fs lat lon vl)).flatten ∧
        CacheWF fs st'
  | [], st, acc, hinv, _ => ⟨acc, st, rfl, by simp, hinv⟩
  | f :: rest, st, acc, hinv, hq => by
    obtain ⟨d0, hd0, df0, hdf0⟩ := hq f (List.mem_cons_self f rest)
    have hper : perFileTS fs lat lon vl f = df0.rows := by
      unfold perFileTS
      simp only [hd0, hdf0]
    have hqrest : ∀ g ∈ rest, ∃ d, DataSet.init fs g = .ok d ∧
        ∃ df, d.coord_timeseries lat lon vl = .ok df :=
      fun g hg => hq g (List.mem_cons_of_mem f hg)
    by_cases hm : Dict.member st.ds_dict f = true
    · obtain ⟨d1, hd1⟩ := Option.isSome_iff_exists.mp hm
      have hd1d0 : d1 = d0 := by
        have := hinv f d1 hd1
        rw [this] at hd0
        exact Except.ok.inj hd0
      rw [hd1d0] at hd1
      simp only [DataLoader.timeSeriesLoop, if_pos hm, hd1, hdf0]
      obtain ⟨R, st', hloop, hrows, hinv'⟩ :=
        timeSeriesLoop_concat fs lat lon vl cache rest _ (acc.concat df0)
          (cacheWF_evict hinv) hqrest
      refine ⟨R, st', hloop, ?_, hinv'⟩
      rw [hrows, DataFrame.concat_rows]
      simp [hper]
    · have hload : DataLoader.load_dataset fs st f =
          ⟨Dict.insert st.ds_dict f d0, st.loadCount + 1⟩ := by
        unfold DataLoader.load_dataset
        rw [hd0]
      have hlook : Dict.lookup (Dict.insert st.ds_dict f d0) f = some d0 := by
        rw [Dict.lookup_insert]
        simp
      have hinv1 : CacheWF fs ⟨Dict.insert st.ds_dict f d0, st.loadCount + 1⟩ := by
        intro g d hg
        simp only [Dict.lookup_insert] at hg
        split at hg
        · rename_i hgf
          rw [hgf, hd0]
          injection hg with hg2
          rw [hg2]
        · exact hinv g d hg
      simp only [DataLoader.timeSeriesLoop, if_neg hm, hload, hlook, hdf0]
      obtain ⟨R, st', hloop, hrows, hinv'⟩ :=
        timeSeriesLoop_concat fs lat lon vl cache rest _ (acc.concat df0)
          (cacheWF_evict hinv1) hqrest
      refine ⟨R, st', hloop, ?_, hinv'⟩
      rw [hrows, DataFrame.concat_rows]
      simp [hper]

theorem timeSliceLoop_concat (fs : FileSys) (t : ℚ) (v : String)
    (cache : Bool) :
    ∀ (files : List String) (st : DataLoader) (acc : DataFrame),
      CacheWF fs st →
      (∀ f ∈ files, ∃ d, DataSet.init fs f = .ok d ∧
        ∃ df, d.time_slice t v = .ok df) →
      ∃ R st', DataLoader.timeSliceLoop fs t v cache files st acc =
          (.ok R, st') ∧
        R.rows = acc.rows ++ (files.map (perFileTSD fs t v)).flatten ∧
        CacheWF fs st'
  | [], st, acc, hinv, _ => ⟨acc, st, rfl, by simp, hinv⟩
  | f :: rest, st, acc, hinv, hq => by
    obtain ⟨d0, hd0, df0, hdf0⟩ := hq f (List.mem_cons_self f rest)
    have hper : perFileTSD fs t v f = df0.rows.map (fun r => r ++ [Val.str f]) := by
      unfold perFileTSD
      simp only [hd0, hdf0]
    have haddc : (df0.addConstCol "FileName" (Val.str f)).rows =
        df0.rows.map (fun r => r ++ [Val.str f]) := rfl
    have hqrest : ∀ g ∈ rest, ∃ d, DataSet.init fs g = .ok d ∧
        ∃ df, d.time_slice t v = .ok df :=
      fun g hg => hq g (List.mem_cons_of_mem f hg)
    by_cases hm : Dict.member st.ds_dict f = true
    · obtain ⟨d1, hd1⟩ := Option.isSome_iff_exists.mp hm
      have hd1d0 : d1 = d0 := by
        have := hinv f d1 hd1
        rw [this] at hd0
        exact Except.ok.inj hd0
      rw [hd1d0] at hd1
      simp only [DataLoader.timeSliceLoop, if_pos hm, hd1, hdf0]
      obtain ⟨R, st', hloop, hrows, hinv'⟩ :=
        timeSliceLoop_concat fs t v cache rest _
          (acc.concat (df0.addConstCol "FileName" (Val.str f)))
          (cacheWF_evict hinv) hqrest
      refine ⟨R, st', hloop, ?_, hinv'⟩
      rw [hrows, DataFrame.concat_rows, haddc]
      simp [hper]
    · have hload : DataLoader.load_dataset fs st f =
          ⟨Dict.insert st.ds_dict f d0, st.loadCount + 1⟩ := by
        unfold DataLoader.load_dataset
        rw [hd0]
      have hlook : Dict.lookup (Dict.insert st.ds_dict f d0) f = some d0 := by
        rw [Dict.lookup_insert]
        simp
      have hinv1 : CacheWF fs ⟨Dict.insert st.ds_dict f d0, st.loadCount + 1⟩ := by
        intro g d hg
        simp only [Dict.lookup_insert] at hg
        split at hg
        · rename_i hgf
          rw [hgf, hd0]
          injection hg with hg2
          rw [hg2]
        · exact hinv g d hg
      simp only [DataLoader.timeSliceLoop, if_neg hm, hload, hlook, hdf0]
      obtain ⟨R, st', hloop, hrows, hinv'⟩ :=
        timeSliceLoop_concat fs t v cache rest _
          (acc.concat (df0.addConstCol "FileName" (Val.str f)))
          (cacheWF_evict hinv1) hqrest
      refine ⟨R, st', hloop, ?_, hinv'⟩
      rw [hrows, DataFrame.concat_rows, haddc]
      simp [hper]

/-! ### Claims C6, C7, C8 -/

/-- C6: After a `time_series` or `time_slice_daily` call with
`cache=false` that returns normally, the cache holds no entry for any
file in the processed list — including files whose entry pre-existed the
call. -/
theorem noncache_evicts_all_files
    (fs : FileSys) (st : DataLoader) (files : List String)
    (lat lon : ℚ) (vl : List String) (t : ℚ) (v : String)
    (res1 res2 : DataFrame) (stA stB : DataLoader)
    (h1 : DataLoader.time_series fs st files lat lon vl false = (.ok res1, stA))
    (h2 : DataLoader.time_slice_daily fs st files t v false = (.ok res2, stB)) :
    (∀ f ∈ files, Dict.member stA.ds_dict f = false) ∧
    (∀ f ∈ files, Dict.member stB.ds_dict f = false) :=
  ⟨timeSeriesLoop_evict fs lat lon vl files st _ res1 stA h1,
   timeSliceLoop_evict fs t v files st _ res2 stB h2⟩

/-- C7: The cache maps each file identifier to at most one GridTable at
any time (the key list stays duplicate-free across both query
operations); a loader starts with an empty cache and no loads performed
(lazy, not eager); and querying an already-cached file with `cache=true`
performs no second load (the load counter does not move). -/
theorem cache_unique_and_lazy
    (fs : FileSys) (st : DataLoader) (files : List String) (f : String)
    (lat lon : ℚ) (vl : List String) (t : ℚ) (v : String) (cache : Bool)
    (hwf : (Dict.keys st.ds_dict).Nodup) :
    (Dict.keys
      (DataLoader.time_series fs st files lat lon vl cache).2.ds_dict).Nodup ∧
    (Dict.keys
      (DataLoader.time_slice_daily fs st files t v cache).2.ds_dict).Nodup ∧
    DataLoader.mk0.ds_dict = ([] : Dict DataSet) ∧
    DataLoader.mk0.loadCount = 0 ∧
    (Dict.member st.ds_dict f = true →
      (DataLoader.time_series fs st [f] lat lon vl true).2.loadCount
        = st.loadCount) := by
  refine ⟨timeSeriesLoop_nodup fs lat lon vl cache files st _ hwf,
    timeSliceLoop_nodup fs t v cache files st _ hwf, rfl, rfl, ?_⟩
  intro hmem
  obtain ⟨d0, hd0⟩ := Option.isSome_iff_exists.mp hmem
  show (DataLoader.timeSeriesLoop fs lat lon vl true [f] st
    DataFrame.empty).2.loadCount = st.loadCount
  simp only [DataLoader.timeSeriesLoop, if_pos hmem, hd0]
  rcases hq : d0.coord_timeseries lat lon vl with e | curr <;> simp [hq]

/-- C8: A multi-file query returns the concatenation of the per-file
results in file-list order (earlier files' rows precede later files'
rows, within-file order preserved), and an empty file list yields an
empty result rather than an error.  Hypotheses: every cached entry is
the dataset its key loads to, and every file in the list loads and
queries successfully. -/
theorem multifile_concat_order
    (fs : FileSys) (st : DataLoader) (files : List String)
    (lat lon : ℚ) (vl : List String) (t : ℚ) (v : String) (cache : Bool)
    (hinv : CacheWF fs st)
    (hq1 : ∀ f ∈ files, ∃ d, DataSet.init fs f = .ok d ∧
      ∃ df, d.coord_timeseries lat lon vl = .ok df)
    (hq2 : ∀ f ∈ files, ∃ d, DataSet.init fs f = .ok d ∧
      ∃ df, d.time_slice t v = .ok df) :
    (∃ R stA, DataLoader.time_series fs st files lat lon vl cache =
        (.ok R, stA) ∧
      R.rows = (files.map (perFileTS fs lat lon vl)).flatten) ∧
    (∃ R stB, DataLoader.time_slice_daily fs st files t v cache =
        (.ok R, stB) ∧
      R.rows = (files.map (perFileTSD fs t v)).flatten) ∧
    DataLoader.time_series fs st [] lat lon vl cache =
      (.ok DataFrame.empty, st) ∧
    DataLoader.time_slice_daily fs st [] t v cache =
      (.ok DataFrame.empty, st) := by
  obtain ⟨R1, stA, hA, hrowsA, _⟩ :=
    timeSeriesLoop_concat fs lat lon vl cache files st DataFrame.empty hinv hq1
  obtain ⟨R2, stB, hB, hrowsB, _⟩ :=
    timeSliceLoop_concat fs t v cache files st DataFrame.empty hinv hq2
  exact ⟨⟨R1, stA, hA, by simpa using hrowsA⟩,
    ⟨R2, stB, hB, by simpa using hrowsB⟩, rfl, rfl⟩

/-! ### Concrete facts about the example file, used to discharge
hypotheses in the witnesses -/

theorem exFile_dataVars : dataVars exFile =
    [⟨"PRECTOT", "total_precipitation",
      .d3 [[[1, 2], [3, 4]], [[5, 6], [7, 8]]]⟩] := rfl

theorem exFile_shape : ∀ v ∈ dataVars exFile,
    ExactShape v ([(0 : ℚ), 1].length) ([(32.5 : ℚ), 35].length)
      ([(35 : ℚ), 40].length) := by
  intro v hv
  rw [exFile_dataVars] at hv
  obtain rfl := List.mem_singleton.mp hv
  exact ⟨[[[1, 2], [3, 4]], [[5, 6], [7, 8]]], rfl, rfl, by decide⟩

theorem exFile_hvx : ∀ x ∈ ["total_precipitation"],
    ∃ v ∈ dataVars exFile, v.long_name = x := by
  intro x hx
  obtain rfl := List.mem_singleton.mp hx
  exact ⟨⟨"PRECTOT", "total_precipitation",
    .d3 [[[1, 2], [3, 4]], [[5, 6], [7, 8]]]⟩,
    by rw [exFile_dataVars]; exact List.mem_singleton.mpr rfl, rfl⟩

/-! ### Witnesses -/

/-- Witness for C1's amended theorem, at a missing file and an empty
loader. -/
theorem load_failure_aborts_with_keyError_witness :
    DataLoader.timeSeriesLoop exFS 32.5 35 ["total_precipitation"] true
        ["missing"] DataLoader.mk0 DataFrame.empty =
      (.error .keyError, ⟨[], 1⟩) ∧
    DataLoader.timeSliceLoop exFS 0 "total_precipitation" true ["missing"]
        DataLoader.mk0 DataFrame.empty =
      (.error .keyError, ⟨[], 1⟩) ∧
    Dict.member (DataLoader.mk0).ds_dict "missing" = false :=
  load_failure_aborts_with_keyError exFS DataLoader.mk0 "missing" [] 32.5 35
    ["total_precipitation"] true 0 "total_precipitation" DataFrame.empty
    DataFrame.empty (by decide) PyErr.nameError rfl

/-- Witness for C2, reproducing the spec's worked example:
`coord_timeseries(32.5, 35, ["total_precipitation"])` on the example file
returns the rows `[(time=0, value=1), (time=1, value=5)]`. -/
theorem coord_timeseries_valid_rows_witness :
    ∃ res, exDS.coord_timeseries 32.5 35 ["total_precipitation"] = .ok res ∧
      res.cols = ["time", "total_precipitation"] ∧
      res.rows.length = 2 ∧
      res.rows = [[Val.num 0, Val.num 1], [Val.num 1, Val.num 5]] := by
  obtain ⟨res, h1, h2, h3, h4⟩ := coord_timeseries_valid_rows exFS "f1" exFile
    [0, 1] [32.5, 35] [35, 40] exDS rfl rfl rfl rfl (by decide) (by decide)
    exFile_shape (by decide) exDS_init (by decide) (by decide) (by decide)
    32.5 35 0 0 (by decide) (by decide) (by decide) (by decide)
    (by decide) (by decide) ["total_precipitation"] exFile_hvx
  exact ⟨res, h1, h2.trans rfl, h3.trans rfl, h4.trans rfl⟩

/-- Witness for C3: the example file's table has the product columns and
rows; row 6 pairs `(time=1, lat=35, lon=35)` with flat value 7. -/
theorem convert2dataframe_product_order_witness :
    ∃ df, exDS.df = some df ∧
      df.cols = ["time", "lat", "lon", "total_precipitation"] ∧
      df.rows.length = 8 ∧
      df.rows.getD 6 [] = [Val.num 1, Val.num 35, Val.num 35, Val.num 7] := by
  obtain ⟨df, h1, h2, h3, h4⟩ := convert2dataframe_product_order exFS "f1" exFile
    [0, 1] [32.5, 35] [35, 40] exDS rfl rfl rfl rfl (by decide) (by decide)
    (by decide) (by decide) exDS_init
  have h5 := h4 1 1 0 (by decide) (by decide) (by decide)
  exact ⟨df, h1, h2.trans rfl, h3.trans rfl, h5.trans rfl⟩

/-- Witness for C4: `(1, 2)` is outside the example file's coordinate
sets, and the query returns the empty frame without an error. -/
theorem coord_timeseries_invalid_empty_witness :
    ((1 : ℚ) ∉ exDS.lat_set ∨ (2 : ℚ) ∉ exDS.lon_set) ∧
    exDS.coord_timeseries 1 2 ["total_precipitation"] = .ok DataFrame.empty :=
  ⟨Or.inl (by decide),
   coord_timeseries_invalid_empty exDS 1 2 ["total_precipitation"]
     (Or.inl (by decide))⟩

/-- Witness for C5, reproducing the spec's worked example:
`time_slice(0, "total_precipitation")` returns the four `(lat, lon)`
rows, and a time absent from the file returns zero rows. -/
theorem time_slice_exact_rows_witness :
    exDS.time_slice 99 "total_precipitation" =
      .ok ⟨["lat", "lon", "total_precipitation"], []⟩ ∧
    ∃ res, exDS.time_slice 0 "total_precipitation" = .ok res ∧
      res.cols = ["lat", "lon", "total_precipitation"] ∧
      res.rows = [[Val.num 32.5, Val.num 35, Val.num 1],
                  [Val.num 32.5, Val.num 40, Val.num 2],
                  [Val.num 35, Val.num 35, Val.num 3],
                  [Val.num 35, Val.num 40, Val.num 4]] := by
  have h99 := time_slice_exact_rows exFS "f1" exFile [0, 1] [32.5, 35] [35, 40]
    exDS rfl rfl rfl rfl (by decide) (by decide) exFile_shape (by decide)
    exDS_init (by decide) "total_precipitation"
    (exFile_hvx "total_precipitation" (List.mem_singleton.mpr rfl)) 99
  have h0 := time_slice_exact_rows exFS "f1" exFile [0, 1] [32.5, 35] [35, 40]
    exDS rfl rfl rfl rfl (by decide) (by decide) exFile_shape (by decide)
    exDS_init (by decide) "total_precipitation"
    (exFile_hvx "total_precipitation" (List.mem_singleton.mpr rfl)) 0
  obtain ⟨res, h1, h2, h3⟩ := h0.2 0 (by decide) (by decide)
  exact ⟨h99.1 (by decide), res, h1, h2, h3.trans rfl⟩

/-- Witness for C6: a `cache=false` query on a pre-cached file leaves the
cache without that file. -/
theorem noncache_evicts_all_files_witness :
    (∀ f ∈ ["f1"], Dict.member (⟨[], 0⟩ : DataLoader).ds_dict f = false) ∧
    (∀ f ∈ ["f1"], Dict.member (⟨[], 0⟩ : DataLoader).ds_dict f = false) :=
  noncache_evicts_all_files exFS ⟨[("f1", exDS)], 0⟩ ["f1"] 32.5 35
    ["total_precipitation"] 0 "total_precipitation"
    ⟨["time", "total_precipitation"],
      [[Val.num 0, Val.num 1], [Val.num 1, Val.num 5]]⟩
    ⟨["lat", "lon", "total_precipitation", "FileName"],
      [[Val.num 32.5, Val.num 35, Val.num 1, Val.str "f1"],
       [Val.num 32.5, Val.num 40, Val.num 2, Val.str "f1"],
       [Val.num 35, Val.num 35, Val.num 3, Val.str "f1"],
       [Val.num 35, Val.num 40, Val.num 4, Val.str "f1"]]⟩
    ⟨[], 0⟩ ⟨[], 0⟩ rfl rfl

/-- Witness for C7: with `"f1"` already cached and `loadCount = 5`,
querying it again with `cache=true` performs no load. -/
theorem cache_unique_and_lazy_witness :
    (Dict.keys (DataLoader.time_series exFS ⟨[("f1", exDS)], 5⟩ ["f1"] 32.5 35
      ["total_precipitation"] true).2.ds_dict).Nodup ∧
    DataLoader.mk0.ds_dict = ([] : Dict DataSet) ∧
    DataLoader.mk0.loadCount = 0 ∧
    (DataLoader.time_series exFS ⟨[("f1", exDS)], 5⟩ ["f1"] 32.5 35
      ["total_precipitation"] true).2.loadCount = 5 := by
  have h := cache_unique_and_lazy exFS ⟨[("f1", exDS)], 5⟩ ["f1"] "f1" 32.5 35
    ["total_precipitation"] 0 "total_precipitation" true (by decide)
  exact ⟨h.1, h.2.2.1, h.2.2.2.1, h.2.2.2.2 (by decide)⟩

/-- Witness for C8: a two-file query returns the first file's rows before
the second file's rows. -/
theorem multifile_concat_order_witness :
    ∃ R stA, DataLoader.time_series exFS DataLoader.mk0 ["f1", "f2"] 32.5 35
        ["total_precipitation"] true = (.ok R, stA) ∧
      R.rows = [[Val.num 0, Val.num 1], [Val.num 1, Val.num 5],
                [Val.num 0, Val.num 11], [Val.num 1, Val.num 15]] := by
  have h := multifile_concat_order exFS DataLoader.mk0 ["f1", "f2"] 32.5 35
    ["total_precipitation"] 0 "total_precipitation" true
    (fun f d hfd => Option.noConfusion hfd)
    (by
      intro f hf
      rcases List.mem_cons.mp hf with rfl | hf
      · exact ⟨exDS, exDS_init, ⟨_, rfl⟩⟩
      obtain rfl := List.mem_singleton.mp hf
      exact ⟨exDS2, exDS2_init, ⟨_, rfl⟩⟩)
    (by
      intro f hf
      rcases List.mem_cons.mp hf with rfl | hf
      · exact ⟨exDS, exDS_init, ⟨_, rfl⟩⟩
      obtain rfl := List.mem_singleton.mp hf
      exact ⟨exDS2, exDS2_init, ⟨_, rfl⟩⟩)
  obtain ⟨⟨R, stA, hA, hrows⟩, -, -, -⟩ := h
  exact ⟨R, stA, hA, hrows.trans rfl⟩

/-- Witness for C9: a missing file fails with `NameError('IOError')`. -/
theorem init_fails_nameError_witness :
    exFS "missing" = none ∧
    DataSet.init exFS "missing" = .error .nameError :=
  ⟨rfl, (init_fails_nameError exFS "missing" rfl).1⟩

/-- Witness for C10: after releasing the example DataSet, both queries
fail with `AttributeError` while the metadata dicts are unchanged. -/
theorem release_then_query_errors_witness :
    exDS.release.coord_timeseries 32.5 35 ["total_precipitation"] =
      .error .attributeError ∧
    exDS.release.time_slice 0 "total_precipitation" = .error .attributeError ∧
    exDS.release.get_dim_dict = exDS.get_dim_dict ∧
    exDS.release.get_var_dict = exDS.get_var_dict :=
  release_then_query_errors exDS 32.5 35 ["total_precipitation"] 0
    "total_precipitation" (by decide) (by decide)

end Globdata
